import Mathlib

/-!
# Ishiko TestFramework: context resolution and harness orchestration

A shallow embedding of `TestContext.cpp` and of the orchestration part of
`TestHarness.cpp`, followed by the properties proved about them.

Conventions of the embedding:

* a C++ call that may throw is a function into `Except`; the C++ `const`
  member functions are functions of the receiver only;
* `boost::filesystem::path` is kept as its pathname string, with the
  Boost.Filesystem (version 3, POSIX separators) reading of `operator/`,
  `extension`, `has_extension` and `replace_extension`;
* `std::map<std::string, path>` is an association list read through
  `List.lookup`;
* what the platform and the other libraries supply (`OS::Family()`,
  `FileSystem::Exists`, the variable expander of the setters, the clock, the
  configuration source, the root sequence's `run()`, the JUnit writer, the
  console stream) is passed in as a parameter;
* the pass rate, computed in `double` by the source, is computed here in
  integer arithmetic that rounds as IEEE 754 double precision does.
-/

namespace Ishiko

/-! ## boost::filesystem::path -/

/-- The class boost::filesystem::path, kept as its pathname string. -/
structure Path where
  m_pathname : String
deriving DecidableEq, Repr

/-- The predicate `is_separator` of Boost.Filesystem for POSIX paths. -/
def is_separator (c : Char) : Bool := c == '/'

/-- The test `path::empty()`. -/
def Path.empty (p : Path) : Bool := p.m_pathname.data.isEmpty

/-- The helper `path::m_append_separator_if_needed`: a separator is added to a
non-empty pathname that does not already end in one. -/
def Path.m_append_separator_if_needed (p : Path) : Path :=
  match p.m_pathname.data.getLast? with
  | none => p
  | some c => if is_separator c then p else ⟨p.m_pathname ++ "/"⟩

/-- The operator `path::operator/=` (and so `operator/`): an empty right-hand
side leaves the path as it is; otherwise the right-hand side is appended,
after a separator unless it brings its own or none is needed. -/
def Path.append (p q : Path) : Path :=
  match q.m_pathname.data with
  | [] => p
  | c :: _ =>
    if is_separator c then ⟨p.m_pathname ++ q.m_pathname⟩
    else ⟨p.m_append_separator_if_needed.m_pathname ++ q.m_pathname⟩

instance : HDiv Path Path Path := ⟨Path.append⟩

/-- The characters of the last element of a pathname: what follows its last
separator. (For a path that ends in a separator Boost names the last element
"." or the root "/"; like the empty string, neither has an extension.) -/
def lastElement (s : List Char) : List Char :=
  (s.reverse.takeWhile (fun c => !is_separator c)).reverse

/-- The extension of a file name, as `path::extension` finds it: nothing for
"." and "..", nothing when the name has no dot, otherwise the name from its
last dot on. -/
def extensionOfName (name : List Char) : List Char :=
  if name = ['.'] ∨ name = ['.', '.'] then []
  else if '.' ∈ name then '.' :: (name.reverse.takeWhile (fun c => c != '.')).reverse
  else []

/-- The function `path::extension()`. -/
def Path.extension (p : Path) : Path :=
  ⟨⟨extensionOfName (lastElement p.m_pathname.data)⟩⟩

/-- The test `path::has_extension()`. -/
def Path.has_extension (p : Path) : Bool := !p.extension.empty

/-- The function `path::replace_extension(new_extension)`: the existing
extension is erased from the end of the pathname, then a non-empty new
extension is appended, after a dot when it does not start with one. -/
def Path.replace_extension (p : Path) (new_extension : String) : Path :=
  let erased : List Char :=
    p.m_pathname.data.take (p.m_pathname.data.length - p.extension.m_pathname.data.length)
  match new_extension.data with
  | [] => ⟨⟨erased⟩⟩
  | c :: _ =>
    if c != '.' then ⟨⟨erased ++ '.' :: new_extension.data⟩⟩
    else ⟨⟨erased ++ new_extension.data⟩⟩

/-! ## TestContext -/

/-- The exception class TestException, with the message it was built from. -/
structure TestException where
  what : String
deriving DecidableEq, Repr

/-- The class TestContext: the parent pointer (none for a null pointer), the
three directory maps and the optional application path. -/
structure TestContext where
  m_parent : Option TestContext
  m_dataDirectories : List (String × Path)
  m_referenceDirectories : List (String × Path)
  m_outputDirectories : List (String × Path)
  m_application_path : Option Path

/-- The overload `TestContext::getDataDirectory(const std::string& id)`. -/
def TestContext.getDataDirectory : TestContext → String → Except TestException Path
  | ⟨some m_parent, m_dataDirectories, _, _, _⟩, id =>
    match m_dataDirectories.lookup id with
    | some second => do
      let parent ← m_parent.getDataDirectory id
      pure (parent / second)
    | none => m_parent.getDataDirectory id
  | ⟨none, m_dataDirectories, _, _, _⟩, id =>
    match m_dataDirectories.lookup id with
    | some second => pure second
    | none => throw ⟨"getDataDirectory: no directory found with id " ++ id⟩

/-- The overload `TestContext::getReferenceDirectory(const std::string& id)`. -/
def TestContext.getReferenceDirectory : TestContext → String → Except TestException Path
  | ⟨some m_parent, _, m_referenceDirectories, _, _⟩, id =>
    match m_referenceDirectories.lookup id with
    | some second => do
      let parent ← m_parent.getReferenceDirectory id
      pure (parent / second)
    | none => m_parent.getReferenceDirectory id
  | ⟨none, _, m_referenceDirectories, _, _⟩, id =>
    match m_referenceDirectories.lookup id with
    | some second => pure second
    | none => throw ⟨"getReferenceDirectory: no directory found with id " ++ id⟩

/-- The overload `TestContext::getOutputDirectory(const std::string& id)`. -/
def TestContext.getOutputDirectory : TestContext → String → Except TestException Path
  | ⟨some m_parent, _, _, m_outputDirectories, _⟩, id =>
    match m_outputDirectories.lookup id with
    | some second => do
      let parent ← m_parent.getOutputDirectory id
      pure (parent / second)
    | none => m_parent.getOutputDirectory id
  | ⟨none, _, _, m_outputDirectories, _⟩, id =>
    match m_outputDirectories.lookup id with
    | some second => pure second
    | none => throw ⟨"getOutputDirectory: no directory found with id " ++ id⟩

/-- The function `TestContext::getApplicationPath()`. -/
def TestContext.getApplicationPath : TestContext → Except TestException Path
  | ⟨_, _, _, _, some application_path⟩ => pure application_path
  | ⟨some m_parent, _, _, _, none⟩ => m_parent.getApplicationPath
  | ⟨none, _, _, _, none⟩ => throw ⟨"getApplicationPath not set"⟩

/-- Modelled from the spec: the enumeration TestContext::PathResolution, whose
header is not among the sources. The code tells `none` from every other mode,
and the spec speaks of resolution being requested or not. -/
inductive PathResolution where
  | none
  | platform_specific
deriving DecidableEq, Repr

/-- The local variable `platform_specific_path` of `getReferencePath` once the
block that computes it has run (lines 145-153 with `qualifier` the platform
family, and the same block at lines 160-168 with `qualifier` the literal
"unix"). -/
def platform_specific_path (qualifier : String) (path : Path) : Path :=
  if path.has_extension then
    path.replace_extension (qualifier ++ path.extension.m_pathname)
  else
    path.replace_extension qualifier

/-- The function `TestContext::getReferenceDirectory()` without argument. -/
def TestContext.getReferenceDirectoryDefault (c : TestContext) : Except TestException Path :=
  c.getReferenceDirectory "(default)"

/-- The function `TestContext::getReferencePath(path, path_resolution)`.
`os_family` is what `OS::Family()` returns on the platform and `Exists` is the
filesystem probe `FileSystem::Exists`. -/
def TestContext.getReferencePath (c : TestContext) (os_family : String) (Exists : Path → Bool)
    (path : Path) (path_resolution : PathResolution) : Except TestException Path :=
  if path_resolution = PathResolution.none then do
    let directory ← c.getReferenceDirectoryDefault
    pure (directory / path)
  else do
    let directory ← c.getReferenceDirectoryDefault
    let proposed_reference_path := directory / platform_specific_path os_family path
    if !Exists proposed_reference_path then
      if os_family = "linux" ∨ os_family = "cygwin" then do
        let directory ← c.getReferenceDirectoryDefault
        let proposed_reference_path := directory / platform_specific_path "unix" path
        if !Exists proposed_reference_path then do
          let directory ← c.getReferenceDirectoryDefault
          pure (directory / path)
        else
          pure proposed_reference_path
      else do
        let directory ← c.getReferenceDirectoryDefault
        pure (directory / path)
    else
      pure proposed_reference_path

/-! ## The spec's vocabulary for the context -/

/-- The three roles of a resolved directory. -/
inductive Role where
  | data
  | reference
  | output
deriving DecidableEq, Repr

/-- The local mapping of a role: the map member the role's getter reads. -/
def TestContext.localDirectories (c : TestContext) : Role → List (String × Path)
  | .data => c.m_dataDirectories
  | .reference => c.m_referenceDirectories
  | .output => c.m_outputDirectories

/-- The spec's `getDirectory(role, id)`: the getter of the role. -/
def TestContext.getDirectory (c : TestContext) : Role → String → Except TestException Path
  | .data, id => c.getDataDirectory id
  | .reference, id => c.getReferenceDirectory id
  | .output, id => c.getOutputDirectory id

/-- The name of the getter of a role, as its failure message spells it. -/
def Role.getterName : Role → String
  | .data => "getDataDirectory"
  | .reference => "getReferenceDirectory"
  | .output => "getOutputDirectory"

/-- A call of a const member function on a context: what the call gives, and
the context after it, which a const member function leaves as it found it. -/
def TestContext.constCall {α : Type} (c : TestContext) (f : TestContext → α) : α × TestContext :=
  (f c, c)

/-- The chain of a context: the context itself, then its parent, up to the
root. -/
def TestContext.chain : TestContext → List TestContext
  | ⟨some m_parent, d, r, o, a⟩ => ⟨some m_parent, d, r, o, a⟩ :: m_parent.chain
  | ⟨none, d, r, o, a⟩ => [⟨none, d, r, o, a⟩]

/-- A platform family name as `OS::Family()` returns them ("linux", "cygwin",
"windows"): a non-empty word that does not begin with a dot. -/
def isFamilyName (f : String) : Bool :=
  match f.data with
  | [] => false
  | c :: _ => c != '.'

/-- The directory part of a pathname: empty, or ending in a separator. -/
def isDirectoryPart (dir : String) : Bool :=
  match dir.data.getLast? with
  | none => true
  | some c => is_separator c

/-- A file name (or part of one): no separator in it. -/
def isNamePart (name : String) : Bool := name.data.all (fun c => !is_separator c)

/-- A word with neither a dot nor a separator in it: a last extension without
its dot, or a file name without an extension. -/
def isPlainPart (ext : String) : Bool :=
  ext.data.all (fun c => !is_separator c && c != '.')

/-! ## TestContext: constructors, setters and paths -/

/-- The default constructor `TestContext::TestContext()`: no parent, and the
empty path under "(default)" in each of the three maps. -/
def TestContext.create : TestContext :=
  ⟨none, [("(default)", ⟨""⟩)], [("(default)", ⟨""⟩)], [("(default)", ⟨""⟩)], none⟩

/-- The constructor `TestContext::TestContext(const TestContext* parent)`. -/
def TestContext.createWithParent (parent : Option TestContext) : TestContext :=
  ⟨parent, [], [], [], none⟩

/-- The function `TestContext::DefaultTestContext()`: a default-constructed
context. -/
def TestContext.DefaultTestContext : TestContext := TestContext.create

/-- The assignment `map[id] = path` on a `std::map`: the value of an existing
key is replaced, a new key is added. -/
def mapAssign : List (String × Path) → String → Path → List (String × Path)
  | [], id, path => [(id, path)]
  | (key, value) :: rest, id, path =>
    if id == key then (key, path) :: rest else (key, value) :: mapAssign rest id path

/-- The overload `TestContext::setDataDirectory(id, path)`. `expand` is
`CurrentEnvironment::ExpandVariablesInString` with the format
DollarAndCurlyBrackets, in the environment of the process. -/
def TestContext.setDataDirectory (c : TestContext) (expand : String → String) (id : String)
    (path : Path) : TestContext :=
  let expandedPath := expand path.m_pathname
  { c with m_dataDirectories := mapAssign c.m_dataDirectories id ⟨expandedPath⟩ }

/-- The overload `TestContext::setReferenceDirectory(id, path)`. -/
def TestContext.setReferenceDirectory (c : TestContext) (expand : String → String) (id : String)
    (path : Path) : TestContext :=
  let expandedPath := expand path.m_pathname
  { c with m_referenceDirectories := mapAssign c.m_referenceDirectories id ⟨expandedPath⟩ }

/-- The overload `TestContext::setOutputDirectory(id, path)`. -/
def TestContext.setOutputDirectory (c : TestContext) (expand : String → String) (id : String)
    (path : Path) : TestContext :=
  let expandedPath := expand path.m_pathname
  { c with m_outputDirectories := mapAssign c.m_outputDirectories id ⟨expandedPath⟩ }

/-- The overload `TestContext::setDataDirectory(path)`. -/
def TestContext.setDataDirectoryDefault (c : TestContext) (expand : String → String)
    (path : Path) : TestContext :=
  c.setDataDirectory expand "(default)" path

/-- The overload `TestContext::setReferenceDirectory(path)`. -/
def TestContext.setReferenceDirectoryDefault (c : TestContext) (expand : String → String)
    (path : Path) : TestContext :=
  c.setReferenceDirectory expand "(default)" path

/-- The overload `TestContext::setOutputDirectory(path)`. -/
def TestContext.setOutputDirectoryDefault (c : TestContext) (expand : String → String)
    (path : Path) : TestContext :=
  c.setOutputDirectory expand "(default)" path

/-- The function `TestContext::setApplicationPath(path)`. -/
def TestContext.setApplicationPath (c : TestContext) (path : Path) : TestContext :=
  { c with m_application_path := some path }

/-- The spec's `setDirectory(role, id, path)`: the setter of the role. -/
def TestContext.setDirectory (c : TestContext) (expand : String → String) :
    Role → String → Path → TestContext
  | .data, id, path => c.setDataDirectory expand id path
  | .reference, id, path => c.setReferenceDirectory expand id path
  | .output, id, path => c.setOutputDirectory expand id path

/-- The function `TestContext::getDataDirectory()` without argument. -/
def TestContext.getDataDirectoryDefault (c : TestContext) : Except TestException Path :=
  c.getDataDirectory "(default)"

/-- The function `TestContext::getOutputDirectory()` without argument. -/
def TestContext.getOutputDirectoryDefault (c : TestContext) : Except TestException Path :=
  c.getOutputDirectory "(default)"

/-- The function `TestContext::getDataPath(path)`. -/
def TestContext.getDataPath (c : TestContext) (path : Path) : Except TestException Path := do
  let directory ← c.getDataDirectoryDefault
  pure (directory / path)

/-- The function `TestContext::getOutputPath(path)`. -/
def TestContext.getOutputPath (c : TestContext) (path : Path) : Except TestException Path := do
  let directory ← c.getOutputDirectoryDefault
  pure (directory / path)

/-- The value `TestFrameworkErrorCategory::Value::generic_error`, the one
value the context reports. -/
inductive TestFrameworkErrorCategory where
  | generic_error
deriving DecidableEq, Repr

/-- The class Ishiko::Error as the context uses it: unset, or set to a value
of the category. -/
abbrev Error := Option TestFrameworkErrorCategory

/-- The function `Fail(value, error)`: an unset error is set to the value; an
error that is already set keeps what it has. -/
def Fail (value : TestFrameworkErrorCategory) (error : Error) : Error :=
  match error with
  | none => some value
  | some earlier => some earlier

/-- The overload `TestContext::getOutputDirectory(id, error)`: the path
returned and `error` as the call leaves it, or what the call threw. -/
def TestContext.getOutputDirectoryWithError :
    TestContext → String → Error → Except TestException (Path × Error)
  | ⟨some m_parent, _, _, m_outputDirectories, _⟩, id, error =>
    match m_outputDirectories.lookup id with
    | some second => do
      let parent ← m_parent.getOutputDirectory id
      pure (parent / second, error)
    | none => m_parent.getOutputDirectoryWithError id error
  | ⟨none, _, _, m_outputDirectories, _⟩, id, error =>
    match m_outputDirectories.lookup id with
    | some second => pure (second, error)
    | none => pure (⟨""⟩, Fail TestFrameworkErrorCategory.generic_error error)

/-- The closed form of a resolution along a chain given root first: nothing
when the list is empty or its head, the root, has no mapping for `id`;
otherwise the root's mapping joined, in order, with the mappings of the later
contexts that have one. -/
def joinedAlong (role : Role) (id : String) : List TestContext → Option Path
  | [] => none
  | root :: descendants =>
    match (root.localDirectories role).lookup id with
    | none => none
    | some first =>
      some ((descendants.filterMap (fun c => (c.localDirectories role).lookup id)).foldl
        (fun joined second => joined / second) first)


/-! ## Chains under a default-constructed root -/

/-- The root of the chain of a context: the context reached by following the
parent pointers to the end. -/
def TestContext.rootOf : TestContext → TestContext
  | ⟨some m_parent, _, _, _, _⟩ => m_parent.rootOf
  | ⟨none, d, r, o, a⟩ => ⟨none, d, r, o, a⟩

/-- A call `setDirectory(role, id, path)` on a node of the chain of a
context, as the context sees it: on the context itself for depth 0, on its
parent for depth 1, and so on; beyond the root there is no node and nothing
changes. The source holds the parent through a pointer, so that a call on an
ancestor is seen by its descendants; here the parent is held by value and the
call is delivered along the chain. -/
def TestContext.setDirectoryAt (expand : String → String) (role : Role) (id : String)
    (path : Path) : TestContext → Nat → TestContext
  | c, 0 => c.setDirectory expand role id path
  | ⟨some m_parent, d, r, o, a⟩, depth + 1 =>
    ⟨some (TestContext.setDirectoryAt expand role id path m_parent depth), d, r, o, a⟩
  | ⟨none, d, r, o, a⟩, _ + 1 => ⟨none, d, r, o, a⟩

/-- The contexts of the chains whose root was built by the default
constructor: such a root, a context constructed with one of them as parent,
and one of them after a `setDirectory` call on one of the nodes of its
chain. -/
inductive DefaultRooted (expand : String → String) : TestContext → Prop where
  | root : DefaultRooted expand TestContext.create
  | child (parent : TestContext) :
    DefaultRooted expand parent → DefaultRooted expand (TestContext.createWithParent (some parent))
  | set (c : TestContext) (depth : Nat) (role : Role) (id : String) (path : Path) :
    DefaultRooted expand c →
    DefaultRooted expand (TestContext.setDirectoryAt expand role id path c depth)

/-- A chain on which no set operation was applied: a default-constructed
root under `depth` contexts each constructed with the one before as parent. -/
def TestContext.untouchedChain : Nat → TestContext
  | 0 => TestContext.create
  | depth + 1 => TestContext.createWithParent (some (TestContext.untouchedChain depth))

/-! ## The test tree

The classes Test and TestSequence are not among the sources; the harness uses
them through `name()`, `result()`, `passed()`, `skipped()`, `size()`,
`traverse()`, `getPassRate()` and `run()`. -/

/-- Modelled from the spec: the enumeration TestResult, whose header is not
among the sources. These are the six values of the spec's ResultState. -/
inductive TestResult where
  | unknown
  | passed
  | passedWithWarning
  | skipped
  | failed
  | threwException
deriving DecidableEq, Repr

/-- Modelled from the spec: a node of the test tree; the classes Test and
TestSequence are not among the sources. A node is a leaf test or a sequence
that owns its ordered children, and each node has a name and a result. -/
inductive Test where
  | test (name : String) (result : TestResult)
  | sequence (name : String) (result : TestResult) (m_tests : List Test)

/-- Modelled from the spec: the accessor `Test::name()`. -/
def Test.name : Test → String
  | .test name _ => name
  | .sequence name _ _ => name

/-- Modelled from the spec: the accessor `Test::result()`. -/
def Test.result : Test → TestResult
  | .test _ result => result
  | .sequence _ result _ => result

/-- The outcome of `dynamic_cast<const TestSequence*>(&test)`: the children
when the node is a sequence, nothing (the null pointer) when it is not. -/
def Test.asSequence : Test → Option (List Test)
  | .test _ _ => none
  | .sequence _ _ m_tests => some m_tests

/-- Modelled from the spec: the test `Test::passed()`, the class Test not being
among the sources; true iff the result is passed or passedWithWarning. -/
def Test.passed (t : Test) : Bool :=
  t.result = TestResult.passed || t.result = TestResult.passedWithWarning

/-- Modelled from the spec: the test `Test::skipped()`, the class Test not being
among the sources; true iff the result is skipped. -/
def Test.skipped (t : Test) : Bool := t.result = TestResult.skipped

mutual
/-- Modelled from the spec: the nodes `traverse(visitor)` hands to the visitor,
in the order of the calls; TestSequence::traverse is not among the sources.
The visit is depth-first, pre-order, once per node, composite and leaf
alike. -/
def Test.traverse : Test → List Test
  | .test name result => [.test name result]
  | .sequence name result m_tests =>
    .sequence name result m_tests :: Test.traverseAll m_tests
/-- The nodes visited in a list of siblings, one after the other. -/
def Test.traverseAll : List Test → List Test
  | [] => []
  | t :: ts => t.traverse ++ Test.traverseAll ts
end

/-- The seven counters `getPassRate` fills, under the names `printSummary`
gives them. -/
structure PassRate where
  unknown : Nat
  passed : Nat
  passedButMemoryLeaks : Nat
  exception : Nat
  failed : Nat
  skipped : Nat
  total : Nat
deriving DecidableEq, Repr

/-- One more entry of the given result: its counter and the total go up. -/
def PassRate.count (r : PassRate) : TestResult → PassRate
  | .unknown => { r with unknown := r.unknown + 1, total := r.total + 1 }
  | .passed => { r with passed := r.passed + 1, total := r.total + 1 }
  | .passedWithWarning =>
    { r with passedButMemoryLeaks := r.passedButMemoryLeaks + 1, total := r.total + 1 }
  | .threwException => { r with exception := r.exception + 1, total := r.total + 1 }
  | .failed => { r with failed := r.failed + 1, total := r.total + 1 }
  | .skipped => { r with skipped := r.skipped + 1, total := r.total + 1 }

/-- Modelled from the spec: the function `getPassRate`, which is not among the
sources. It walks the tree via `traverse`, counts each leaf under its result,
counts a sequence without children as one unknown entry and does not count a
sequence with children. -/
def Test.getPassRate (t : Test) : PassRate :=
  t.traverse.foldl
    (fun r node =>
      match node with
      | .test _ result => r.count result
      | .sequence _ _ [] => r.count TestResult.unknown
      | .sequence _ _ (_ :: _) => r)
    ⟨0, 0, 0, 0, 0, 0, 0⟩

/-! ## TopTestSequence -/

/-- Modelled from the spec: the enumeration TestObserver::EEventType, whose
header is not among the sources; observers are told of the start and of the
end of a node. -/
inductive EEventType where
  | eTestStart
  | eTestEnd
deriving DecidableEq, Repr

/-- Modelled from the spec: an observer, the class TestObserver not being among
the sources; it is kept as the notifications delivered to it so far, each the
event and the name of the node it is about. -/
structure TestObserver where
  received : List (EEventType × String)
deriving DecidableEq, Repr

/-- The class TopTestSequence: a test sequence under the name given to its
constructor. -/
structure TopTestSequence where
  sequence : Test

/-- The constructor `TopTestSequence::TopTestSequence(name)`. -/
def TopTestSequence.create (name : String) : TopTestSequence :=
  ⟨Test.sequence name TestResult.unknown []⟩

/-- The function `TopTestSequence::notify(type, observer)`, whose body is
empty: the sequence and the observer after the call. -/
def TopTestSequence.notify (s : TopTestSequence) (_type : EEventType) (observer : TestObserver) :
    TopTestSequence × TestObserver :=
  (s, observer)

/-! ## TestHarness -/

/-- Whatever a C++ call throws. -/
structure Thrown where
  what : String
deriving DecidableEq, Repr

/-- Modelled from the spec: the enumeration TestApplicationReturnCode, whose
header is not among the sources. The orchestrator yields one of ok,
testFailure and exception. -/
inductive TestApplicationReturnCode where
  | ok
  | testFailure
  | exception
deriving DecidableEq, Repr

/-- The lines put on `std::cout`, oldest first. -/
abbrev Console := List String

/-- A call made on the JUnit XML writer after its creation. -/
inductive ReportEvent where
  | writeTestSuitesStart
  | writeTestSuiteStart (total : Nat)
  | addToJUnitXMLTestReport (test : Test)
  | writeTestSuiteEnd
  | writeTestSuitesEnd

/-- What the code outside these sources does in one execution of the harness:
each call either returns or throws. -/
structure Collaborators where
  /-- The statement `std::cout << line << std::endl`: the stream after it, or
  what a stream set to throw on errors threw. -/
  cout : Console → String → Except Thrown Console
  /-- The call `m_topSequence.run()` with the progress observer attached: the
  tree and the stream as the run leaves them, or what the run threw. -/
  run : Test → Console → Except Thrown (Test × Console)
  /-- The function `ToString(TestResult)`. -/
  ToString : TestResult → String
  /-- The text `std::fixed << std::setprecision(2)` gives for
  `100 * (double)passed / (double)total`. -/
  passRateText : Nat → Nat → String
  /-- The function `path::parent_path()`. -/
  parent_path : Path → Path
  /-- The call `boost::filesystem::create_directories(p)`, which throws when
  it fails. -/
  create_directories : Path → Except Thrown Unit
  /-- The call `writer.create(reportPath, error)`: whether it set `error`, or
  what it threw. -/
  writer_create : Path → Except Thrown Bool
  /-- A later call on the writer, given the calls made before it. -/
  writer_call : List ReportEvent → ReportEvent → Except Thrown Unit

/-- A stream that takes every line: `std::cout` as it is by default. -/
def standardCout (out : Console) (line : String) : Except Thrown Console :=
  pure (out ++ [line])

/-- The class TestHarness: the members the constructors initialise. -/
structure TestHarness where
  m_junitXMLTestReport : Option String
  m_context : TestContext
  m_topSequence : Test
  m_timestampOutputDirectory : Bool

/-- The body of the lambda `printDetailedResults` gives to `traverse`. -/
def printDetailedResultsVisitor (env : Collaborators) (out : Console) (test : Test) :
    Except Thrown Console :=
  if !test.passed then
    match test.asSequence with
    | none => env.cout out (test.name ++ " " ++ env.ToString test.result)
    | some m_tests =>
      if m_tests.length = 0 then
        env.cout out (test.name ++ " " ++ env.ToString test.result)
      else pure out
  else pure out

/-- The function `TestHarness::printDetailedResults()`. -/
def TestHarness.printDetailedResults (h : TestHarness) (env : Collaborators) (out : Console) :
    Except Thrown Console :=
  h.m_topSequence.traverse.foldlM (printDetailedResultsVisitor env) out

/-- The function `TestHarness::printSummary()`. -/
def TestHarness.printSummary (h : TestHarness) (env : Collaborators) (out : Console) :
    Except Thrown Console :=
  let r := h.m_topSequence.getPassRate
  let passRate := "Pass rate: " ++ env.passRateText r.passed r.total
    ++ "% (" ++ toString r.unknown ++ " unknown, "
    ++ toString r.passed ++ " passed, "
    ++ toString r.passedButMemoryLeaks ++ " passed but with memory leaks, "
    ++ toString r.exception ++ " threw exceptions, "
    ++ toString r.failed ++ " failed, "
    ++ toString r.skipped ++ " skipped, "
    ++ toString r.total ++ " total)"
  if !h.m_topSequence.passed && !h.m_topSequence.skipped then do
    let out ← env.cout out passRate
    let out ← env.cout out ""
    env.cout out "Test Suite FAILED!!!"
  else do
    let out ← env.cout out passRate
    let out ← env.cout out ""
    env.cout out "Test Suite passed"

/-- One call on the writer: the calls made so far with this one added, or
what the call threw. -/
def writerCall (env : Collaborators) (calls : List ReportEvent) (call : ReportEvent) :
    Except Thrown (List ReportEvent) := do
  env.writer_call calls call
  pure (calls ++ [call])

/-- The function `TestHarness::writeJUnitXMLTestReport(path)`; the result is
the list of calls the writer received. The `error` that `writer.create` may
set is a local variable that is never read. -/
def TestHarness.writeJUnitXMLTestReport (h : TestHarness) (env : Collaborators) (path : String) :
    Except Thrown (List ReportEvent) := do
  let reportPath : Path := ⟨path⟩
  if !(env.parent_path reportPath).empty then
    env.create_directories (env.parent_path reportPath)
  let r := h.m_topSequence.getPassRate
  let _error ← env.writer_create reportPath
  let calls ← writerCall env [] ReportEvent.writeTestSuitesStart
  let calls ← writerCall env calls (ReportEvent.writeTestSuiteStart r.total)
  let calls ← h.m_topSequence.traverse.foldlM
    (fun calls test => writerCall env calls (ReportEvent.addToJUnitXMLTestReport test)) calls
  let calls ← writerCall env calls ReportEvent.writeTestSuiteEnd
  writerCall env calls ReportEvent.writeTestSuitesEnd

/-- The try block of `TestHarness::runTests()`. -/
def TestHarness.runTestsTry (h : TestHarness) (env : Collaborators) (out : Console) :
    Except Thrown TestApplicationReturnCode := do
  let out ← env.cout out ""
  let (topSequence, out) ← env.run h.m_topSequence out
  let h := { h with m_topSequence := topSequence }
  let out ← env.cout out ""
  let out ← h.printDetailedResults env out
  let _ ← h.printSummary env out
  if let some path := h.m_junitXMLTestReport then
    let _ ← h.writeJUnitXMLTestReport env path
  if !h.m_topSequence.passed && !h.m_topSequence.skipped then
    return TestApplicationReturnCode.testFailure
  else
    return TestApplicationReturnCode.ok

/-- The function `TestHarness::runTests()`: the try block, and the handler
`catch (...)` that returns the code exception. -/
def TestHarness.runTests (h : TestHarness) (env : Collaborators) (out : Console) :
    Except Thrown TestApplicationReturnCode :=
  tryCatch (h.runTestsTry env out) (fun _ => pure TestApplicationReturnCode.exception)

/-- The function `TestHarness::run()`. -/
def TestHarness.run (h : TestHarness) (env : Collaborators) (out : Console) :
    Except Thrown TestApplicationReturnCode := do
  let out ← env.cout out ("Test Suite: " ++ h.m_topSequence.name)
  h.runTests env out

/-! ## TestHarness: configuration, construction and the output directory -/

/-- The class Ishiko::Configuration::Value as the harness reads it: a string,
or a value of another type. -/
inductive ConfigurationValue where
  | string (asString : String)
  | other
deriving DecidableEq, Repr

/-- The class Ishiko::Configuration as the harness reads it: `valueOrNull`,
which gives the value of an option or nothing (the null pointer). -/
structure IshikoConfiguration where
  valueOrNull : String → Option ConfigurationValue

/-- One block of `TestHarness::Configuration::Configuration`: the string of
the option when it is there with a string value, nothing otherwise. -/
def stringOption (configuration : IshikoConfiguration) (name : String) : Option String :=
  match configuration.valueOrNull name with
  | some value =>
    match value with
    | ConfigurationValue.string asString => some asString
    | ConfigurationValue.other => none
  | none => none

/-- The class TestHarness::Configuration. -/
structure TestHarness.Configuration where
  m_contextData : Option String
  m_contextOutput : Option String
  m_contextReference : Option String
  m_application_path : Option String
  m_persistentStorage : Option String
  m_junitXMLTestReport : Option String
deriving DecidableEq, Repr

/-- The constructor `TestHarness::Configuration::Configuration(configuration)`. -/
def TestHarness.Configuration.create (configuration : IshikoConfiguration) :
    TestHarness.Configuration :=
  { m_contextData := stringOption configuration "context.data"
    m_contextOutput := stringOption configuration "context.output"
    m_contextReference := stringOption configuration "context.reference"
    m_application_path := stringOption configuration "context.application-path"
    m_persistentStorage := stringOption configuration "persistent-storage"
    m_junitXMLTestReport := stringOption configuration "junit-xml-test-report" }

/-- A reading of `boost::posix_time::second_clock::universal_time()`, by the
accessors `prepareOutputDirectory` calls on it. -/
structure ptime where
  year : Nat
  month : Nat
  day : Nat
  hours : Nat
  minutes : Nat
  seconds : Nat
deriving DecidableEq, Repr

/-- The ranges Boost keeps the fields of a time in: a year from 1400 to 9999,
a month from 1 to 12, a day from 1 to 31, and a time of day. -/
def ptime.inRange (t : ptime) : Bool :=
  decide (1400 ≤ t.year) && decide (t.year ≤ 9999)
    && decide (1 ≤ t.month) && decide (t.month ≤ 12)
    && decide (1 ≤ t.day) && decide (t.day ≤ 31)
    && decide (t.hours < 24) && decide (t.minutes < 60) && decide (t.seconds < 60)

/-- The output of `std::setw(2) << std::setfill('0') << n`: the digits of
`n`, after as many zeros as it takes to fill two columns. -/
def setw2 (n : Nat) : String :=
  ⟨List.replicate (2 - (toString n).data.length) '0' ++ (toString n).data⟩

/-- The string `currentSecondStr.str()` of `prepareOutputDirectory`. -/
def currentSecondStr (currentSecond : ptime) : String :=
  toString currentSecond.year
    ++ setw2 currentSecond.month
    ++ setw2 currentSecond.day ++ "T"
    ++ setw2 currentSecond.hours
    ++ setw2 currentSecond.minutes
    ++ setw2 currentSecond.seconds ++ "Z"

/-- The function `TestHarness::prepareOutputDirectory()`. `currentSecond` is
what the clock gives, `expand` the variable expander of the setters. -/
def TestHarness.prepareOutputDirectory (h : TestHarness) (expand : String → String)
    (currentSecond : ptime) : Except TestException TestHarness :=
  if h.m_timestampOutputDirectory then do
    let outputDirectory ← h.m_context.getOutputDirectoryDefault
    let newOutputDirectory : Path := outputDirectory / ⟨currentSecondStr currentSecond⟩
    pure { h with
      m_context := h.m_context.setOutputDirectoryDefault expand ⟨newOutputDirectory.m_pathname⟩ }
  else pure h

/-- The constructor `TestHarness::TestHarness(title)`. The top sequence is a
sequence of that name without children, its result unknown. -/
def TestHarness.create (title : String) : TestHarness :=
  { m_junitXMLTestReport := none
    m_context := TestContext.DefaultTestContext
    m_topSequence := Test.sequence title TestResult.unknown []
    m_timestampOutputDirectory := true }

/-- The constructor `TestHarness::TestHarness(title, configuration)` up to
its last statement: the members as initialised, then the context seeded from
the options that are there. -/
def TestHarness.seeded (expand : String → String) (title : String)
    (configuration : TestHarness.Configuration) : TestHarness :=
  let m_context := TestContext.DefaultTestContext
  let m_context :=
    match configuration.m_contextData with
    | some contextDataPath => m_context.setDataDirectoryDefault expand ⟨contextDataPath⟩
    | none => m_context
  let m_context :=
    match configuration.m_contextOutput with
    | some contextOutputPath => m_context.setOutputDirectoryDefault expand ⟨contextOutputPath⟩
    | none => m_context
  let m_context :=
    match configuration.m_contextReference with
    | some contextReferencePath =>
      m_context.setReferenceDirectoryDefault expand ⟨contextReferencePath⟩
    | none => m_context
  let m_context :=
    match configuration.m_application_path with
    | some contextApplicationPath => m_context.setApplicationPath ⟨contextApplicationPath⟩
    | none => m_context
  let m_context :=
    match configuration.m_persistentStorage with
    | some persistentStoragePath =>
      m_context.setOutputDirectory expand "persistent-storage" ⟨persistentStoragePath⟩
    | none => m_context
  { m_junitXMLTestReport := configuration.m_junitXMLTestReport
    m_context := m_context
    m_topSequence := Test.sequence title TestResult.unknown []
    m_timestampOutputDirectory := true }

/-- The last statement of the constructor from a configuration: the output
directory is prepared when the default output directory is not "". -/
def TestHarness.timestamped (h : TestHarness) (expand : String → String)
    (currentSecond : ptime) : Except TestException TestHarness := do
  let outputDirectory ← h.m_context.getOutputDirectoryDefault
  if !outputDirectory.empty then
    h.prepareOutputDirectory expand currentSecond
  else pure h

/-- The constructor `TestHarness::TestHarness(title, configuration)`. -/
def TestHarness.createFromConfiguration (expand : String → String) (currentSecond : ptime)
    (title : String) (configuration : TestHarness.Configuration) :
    Except TestException TestHarness :=
  (TestHarness.seeded expand title configuration).timestamped expand currentSecond

/-- What remains of the try block of `runTests` once the root sequence has
run: the printing, the report, the return statement. -/
def TestHarness.afterRun (h : TestHarness) (env : Collaborators) (out : Console) :
    Except Thrown TestApplicationReturnCode := do
  let out ← env.cout out ""
  let out ← h.printDetailedResults env out
  let _ ← h.printSummary env out
  if let some path := h.m_junitXMLTestReport then
    let _ ← h.writeJUnitXMLTestReport env path
  if !h.m_topSequence.passed && !h.m_topSequence.skipped then
    return TestApplicationReturnCode.testFailure
  else
    return TestApplicationReturnCode.ok

/-- The printing steps that follow the run: the empty line, the detailed
results, the summary. -/
def TestHarness.printing (h : TestHarness) (env : Collaborators) (out : Console) :
    Except Thrown Console := do
  let out ← env.cout out ""
  let out ← h.printDetailedResults env out
  h.printSummary env out

/-- The verdict on a finished tree: testFailure when the root sequence is
neither passed nor skipped, ok otherwise. -/
def TestHarness.verdict (h : TestHarness) : TestApplicationReturnCode :=
  if !h.m_topSequence.passed && !h.m_topSequence.skipped then
    TestApplicationReturnCode.testFailure
  else
    TestApplicationReturnCode.ok

/-- The harness once the run has left the root sequence as `topSequence`. -/
def TestHarness.finished (h : TestHarness) (topSequence : Test) : TestHarness :=
  { h with m_topSequence := topSequence }

/-- A leaf, or a sequence with zero children. -/
def Test.leafOrEmpty : Test → Bool
  | .test _ _ => true
  | .sequence _ _ m_tests => m_tests.isEmpty

/-! ## The pass rate as iostream prints it

`printSummary` computes `100 * (double)passed / (double)total` in IEEE 754
double precision and prints it under `std::fixed << std::setprecision(2)`.
The doubles met there are finite and not negative; such a double is kept as a
mantissa and a binary exponent, every operation rounds its exact result to
the nearest double, ties to even, and the printing rounds the exact value of
the double to hundredths, ties to even. -/

/-- The integer nearest to `n / d`, the even one of the two when `n / d` lies
half-way between them. -/
def roundHalfEven (n d : Nat) : Nat :=
  let q := n / d
  let r := n % d
  if 2 * r < d then q
  else if d < 2 * r then q + 1
  else if q % 2 = 0 then q
  else q + 1

/-- The search behind `binaryLog`, with enough fuel to finish. -/
def binaryLogWithin : Nat → Nat → Nat
  | 0, _ => 0
  | fuel + 1, n => if 2 ≤ n then binaryLogWithin fuel (n / 2) + 1 else 0

/-- The position of the leading bit of `n`: the `k` with `2 ^ k ≤ n < 2 ^ (k + 1)`
for `n` positive, and 0 for 0. -/
def binaryLog (n : Nat) : Nat := binaryLogWithin n n

/-- A finite double that is not negative: `mantissa * 2 ^ exponent`. -/
structure Double where
  mantissa : Nat
  exponent : Int
deriving DecidableEq, Repr

/-- The scaling that brings `n / d` into `[2 ^ 52, 2 ^ 53)`, for `n` and `d`
positive: the pair `(up, down)` with `2 ^ 52 ≤ (n / d) * 2 ^ up / 2 ^ down <
2 ^ 53`, one of the two being 0. -/
def mantissaShift (n d : Nat) : Nat × Nat :=
  let up := (53 + binaryLog d) - binaryLog n
  let down := binaryLog n - (53 + binaryLog d)
  if 2 ^ 53 * (d * 2 ^ down) ≤ n * 2 ^ up then
    if up = 0 then (0, down + 1) else (up - 1, down)
  else (up, down)

/-- The double nearest to `(n / d) * 2 ^ e`, for `d` positive: zero for zero;
otherwise the quotient, scaled into `[2 ^ 52, 2 ^ 53)`, is rounded to an
integer, the 53-bit mantissa, and the scaling goes to the exponent. -/
def roundToDouble (n d : Nat) (e : Int) : Double :=
  if n = 0 then ⟨0, 0⟩
  else
    ⟨roundHalfEven (n * 2 ^ (mantissaShift n d).1) (d * 2 ^ (mantissaShift n d).2),
      e + (mantissaShift n d).2 - (mantissaShift n d).1⟩

/-- The conversion of an unsigned integer to double, `(double)n`. -/
def Double.ofNat (n : Nat) : Double := roundToDouble n 1 0

/-- The product of two doubles. -/
def Double.mul (x y : Double) : Double :=
  roundToDouble (x.mantissa * y.mantissa) 1 (x.exponent + y.exponent)

/-- The quotient of two doubles, the divisor not zero. -/
def Double.div (x y : Double) : Double :=
  roundToDouble x.mantissa y.mantissa (x.exponent - y.exponent)

/-- The exact value of a double. -/
def Double.value (x : Double) : ℚ := x.mantissa * 2 ^ x.exponent

/-- The number of hundredths `std::fixed << std::setprecision(2)` shows for a
double: its exact value times 100, rounded to an integer. -/
def Double.hundredths (x : Double) : Nat :=
  if 0 ≤ x.exponent then 100 * x.mantissa * 2 ^ x.exponent.toNat
  else roundHalfEven (100 * x.mantissa) (2 ^ (-x.exponent).toNat)

/-- The number of hundredths printed for `100 * (double)passed /
(double)total`. -/
def passRateHundredths (passed total : Nat) : Nat :=
  (Double.div (Double.mul (Double.ofNat 100) (Double.ofNat passed))
    (Double.ofNat total)).hundredths

/-- The text of a number of hundredths in fixed notation with two decimals:
the integer part, a point, two digits. -/
def fixedTwoDecimals (hundredths : Nat) : String :=
  toString (hundredths / 100) ++ "."
    ++ ⟨[Nat.digitChar (hundredths / 10 % 10), Nat.digitChar (hundredths % 10)]⟩

/-- The text `printSummary` prints for the pass rate, for the collaborator
`passRateText`. With `total` zero the quotient is not a number; the text then
printed ("nan", with or without a sign) is outside what is proved here. -/
def doublePassRateText (passed total : Nat) : String :=
  if total = 0 then "nan" else fixedTwoDecimals (passRateHundredths passed total)

/-! ## Concrete harnesses used as examples -/

/-- A harness with a report path, before its run. -/
def reportHarness : TestHarness :=
  ⟨some "out/report.xml", ⟨none, [], [], [], none⟩,
    Test.sequence "suite" TestResult.unknown [Test.test "a" TestResult.unknown], true⟩

/-- The tree of `reportHarness` after a run in which its one test passed. -/
def passedTree : Test :=
  Test.sequence "suite" TestResult.passed [Test.test "a" TestResult.passed]

/-- Collaborators that never throw; the run leaves `passedTree`. -/
def quietCollaborators : Collaborators :=
  { cout := standardCout
    run := fun _ out => pure (passedTree, out)
    ToString := fun _ => ""
    passRateText := fun _ _ => ""
    parent_path := fun _ => ⟨"out"⟩
    create_directories := fun _ => pure ()
    writer_create := fun _ => pure false
    writer_call := fun _ _ => pure () }

/-- The same collaborators, except that `create_directories` throws. -/
def failingReportCollaborators : Collaborators :=
  { quietCollaborators with
    create_directories := fun _ => throw ⟨"create_directories: permission denied"⟩ }

/-- A variable expander, for the examples: one pass over a leading
placeholder, in an environment where A is "$B" and B is "x". -/
def expandAB (s : String) : String :=
  match s.data with
  | '$' :: 'A' :: rest => ⟨'$' :: 'B' :: rest⟩
  | '$' :: 'B' :: rest => ⟨'x' :: rest⟩
  | _ => s

/-- A configuration source, for the examples, with the one option
context.output, set to "$A". -/
def outputOnlyConfiguration : IshikoConfiguration :=
  ⟨fun name => if name = "context.output" then some (ConfigurationValue.string "$A") else none⟩

/-- A clock reading, for the examples: 2024-03-05 07:08:09 UTC. -/
def marchFifth : ptime := ⟨2024, 3, 5, 7, 8, 9⟩

/-- A leaf whose result is passed. -/
def Test.isPassedLeaf : Test → Bool
  | .test _ result => result = TestResult.passed
  | .sequence _ _ _ => false

/-- A harness, for the examples, whose tree has run: three leaves passed and
one failed. -/
def threeOfFourHarness : TestHarness :=
  ⟨none, TestContext.DefaultTestContext,
    Test.sequence "suite" TestResult.failed
      [Test.test "a" TestResult.passed, Test.test "b" TestResult.passed,
        Test.sequence "group" TestResult.failed
          [Test.test "c" TestResult.failed, Test.test "d" TestResult.passed]],
    true⟩

/-- A child of a default-constructed root after two set operations: the
output directory "(default)" of the root set to "out", then the data
directory "(default)" of the child set to "sub". -/
def configuredChild : TestContext :=
  TestContext.setDirectoryAt (fun s => s) Role.data "(default)" ⟨"sub"⟩
    (TestContext.setDirectoryAt (fun s => s) Role.output "(default)" ⟨"out"⟩
      (TestContext.createWithParent (some TestContext.create)) 1) 0

end Ishiko

/-! # Theorems -/

namespace Ishiko

/-! ## Resolution of a directory through the parent -/

theorem getDirectory_of_parent (c parent : TestContext) (role : Role) (id : String)
    (hp : c.m_parent = some parent) :
    c.getDirectory role id =
      match (c.localDirectories role).lookup id with
      | some second => (parent.getDirectory role id).map (fun p => p / second)
      | none => parent.getDirectory role id := by
  obtain ⟨m_parent, d, r, o, a⟩ := c
  simp only at hp
  subst hp
  cases role
  · simp only [TestContext.getDirectory, TestContext.localDirectories]
    rw [TestContext.getDataDirectory]
    cases d.lookup id <;> cases parent.getDataDirectory id <;> rfl
  · simp only [TestContext.getDirectory, TestContext.localDirectories]
    rw [TestContext.getReferenceDirectory]
    cases r.lookup id <;> cases parent.getReferenceDirectory id <;> rfl
  · simp only [TestContext.getDirectory, TestContext.localDirectories]
    rw [TestContext.getOutputDirectory]
    cases o.lookup id <;> cases parent.getOutputDirectory id <;> rfl

theorem getDirectory_of_root (c : TestContext) (role : Role) (id : String)
    (hp : c.m_parent = none) :
    c.getDirectory role id =
      match (c.localDirectories role).lookup id with
      | some second => .ok second
      | none => .error ⟨role.getterName ++ ": no directory found with id " ++ id⟩ := by
  obtain ⟨m_parent, d, r, o, a⟩ := c
  simp only at hp
  subst hp
  cases role
  · simp only [TestContext.getDirectory, TestContext.localDirectories]
    rw [TestContext.getDataDirectory]
    cases d.lookup id <;> rfl
  · simp only [TestContext.getDirectory, TestContext.localDirectories]
    rw [TestContext.getReferenceDirectory]
    cases r.lookup id <;> rfl
  · simp only [TestContext.getDirectory, TestContext.localDirectories]
    rw [TestContext.getOutputDirectory]
    cases o.lookup id <;> rfl

/-- C1: a context that has a parent and no local mapping for `id` resolves
`id`, in each of the three roles, to exactly what its parent resolves it to:
the same path when the parent succeeds, with nothing appended, and the same
failure when the parent fails. -/
theorem getDirectory_falls_through (c parent : TestContext) (role : Role) (id : String)
    (hparent : c.m_parent = some parent)
    (hlocal : (c.localDirectories role).lookup id = none) :
    c.getDirectory role id = parent.getDirectory role id := by
  rw [getDirectory_of_parent c parent role id hparent, hlocal]

/-- The witness of C1: the output directory "x" of a child without a local
"x" mapping is the parent's, here "out". -/
theorem getDirectory_falls_through_witness :
    (TestContext.mk (some ⟨none, [], [], [("x", ⟨"out"⟩)], none⟩) [] [] [("y", ⟨"other"⟩)] none).getDirectory
        Role.output "x"
      = (TestContext.mk none [] [] [("x", ⟨"out"⟩)] none).getDirectory Role.output "x"
    ∧ (TestContext.mk none [] [] [("x", ⟨"out"⟩)] none).getDirectory Role.output "x"
      = .ok ⟨"out"⟩ :=
  ⟨getDirectory_falls_through _ _ Role.output "x" rfl rfl, rfl⟩

/-- C2: a context that has a parent and a local mapping `m` for `id` resolves
`id`, in each of the three roles, to `p / m` whenever its parent resolves it
to `p`. -/
theorem getDirectory_joins_local (c parent : TestContext) (role : Role) (id : String)
    (m p : Path)
    (hparent : c.m_parent = some parent)
    (hlocal : (c.localDirectories role).lookup id = some m)
    (hp : parent.getDirectory role id = .ok p) :
    c.getDirectory role id = .ok (p / m) := by
  rw [getDirectory_of_parent c parent role id hparent, hlocal, hp]
  rfl

/-- The witness of C2: local data mapping "sub" for "(default)" under a parent
mapped to "/base" resolves to "/base/sub". -/
theorem getDirectory_joins_local_witness :
    (TestContext.mk (some ⟨none, [("(default)", ⟨"/base"⟩)], [], [], none⟩)
        [("(default)", ⟨"sub"⟩)] [] [] none).getDirectory Role.data "(default)"
      = .ok ((⟨"/base"⟩ : Path) / (⟨"sub"⟩ : Path))
    ∧ (⟨"/base"⟩ : Path) / (⟨"sub"⟩ : Path) = ⟨"/base/sub"⟩ :=
  ⟨getDirectory_joins_local _ _ Role.data "(default)" ⟨"sub"⟩ ⟨"/base"⟩ rfl rfl rfl, rfl⟩

/-- C3: on a context with no parent and no local mapping for `id`, the getter
of each role fails with the exception whose message is the getter's name,
": no directory found with id " and the requested id, so the failure names
the id; the call, a const member function, leaves the context, and so each of
its mappings, as it was. -/
theorem getDirectory_not_configured (c : TestContext) (role : Role) (id : String)
    (hparent : c.m_parent = none)
    (hlocal : (c.localDirectories role).lookup id = none) :
    c.constCall (fun c => c.getDirectory role id)
        = (.error ⟨role.getterName ++ ": no directory found with id " ++ id⟩, c)
    ∧ (∀ e, c.getDirectory role id = .error e → ∃ pre : String, e.what = pre ++ id)
    ∧ ∀ r, (c.constCall (fun c => c.getDirectory role id)).2.localDirectories r
        = c.localDirectories r := by
  have h := getDirectory_of_root c role id hparent
  rw [hlocal] at h
  refine ⟨?_, ?_, fun r => rfl⟩
  · simp only [TestContext.constCall, h]
  · intro e he
    rw [h] at he
    cases he
    exact ⟨_, rfl⟩

/-- The witness of C3: a root that only maps "(default)" asked for the data
directory "x". -/
theorem getDirectory_not_configured_witness :
    (TestContext.mk none [("(default)", ⟨""⟩)] [] [] none).getDirectory Role.data "x"
      = .error ⟨"getDataDirectory: no directory found with id x"⟩ := by
  have h := (getDirectory_not_configured ⟨none, [("(default)", ⟨""⟩)], [], [], none⟩
    Role.data "x" rfl rfl).1
  exact congrArg Prod.fst h

theorem getApplicationPath_eq_findSome (c : TestContext) :
    c.getApplicationPath =
      match c.chain.findSome? (fun n => n.m_application_path) with
      | some application_path => .ok application_path
      | none => .error ⟨"getApplicationPath not set"⟩ := by
  induction c using TestContext.chain.induct with
  | case1 m_parent d r o a ih =>
    cases a with
    | some application_path =>
      rw [TestContext.getApplicationPath, TestContext.chain]
      rfl
    | none =>
      rw [TestContext.getApplicationPath, TestContext.chain, ih]
      rfl
  | case2 d r o a =>
    cases a with
    | some application_path =>
      rw [TestContext.getApplicationPath, TestContext.chain]
      rfl
    | none =>
      rw [TestContext.getApplicationPath, TestContext.chain]
      rfl

/-- C4: `getApplicationPath()` returns the application path of the first
context of the chain (the context itself, then its ancestors up to the root)
that has one set, and fails, with the exception "getApplicationPath not set",
exactly when no context of the chain has one set. -/
theorem getApplicationPath_nearest (c : TestContext) :
    (c.getApplicationPath =
      match c.chain.findSome? (fun n => n.m_application_path) with
      | some application_path => .ok application_path
      | none => .error ⟨"getApplicationPath not set"⟩)
    ∧ ((∃ e, c.getApplicationPath = .error e) ↔ ∀ n ∈ c.chain, n.m_application_path = none)
    ∧ (∀ e, c.getApplicationPath = .error e → e = ⟨"getApplicationPath not set"⟩) := by
  have key := getApplicationPath_eq_findSome c
  refine ⟨key, ?_, ?_⟩
  · rw [key, ← List.findSome?_eq_none_iff]
    cases c.chain.findSome? (fun n => n.m_application_path) <;> simp
  · intro e he
    rw [key] at he
    cases hf : c.chain.findSome? (fun n => n.m_application_path) with
    | none => rw [hf] at he; cases he; rfl
    | some application_path => rw [hf] at he; cases he

/-- An instance of C4: a node without an application path, whose parent has
"/bin/app" and whose grandparent has "/bin/other", gets "/bin/app"; a chain
on which none is set fails. -/
theorem getApplicationPath_nearest_witness :
    (TestContext.mk (some ⟨some ⟨none, [], [], [], some ⟨"/bin/other"⟩⟩, [], [], [],
        some ⟨"/bin/app"⟩⟩) [] [] [] none).getApplicationPath = .ok ⟨"/bin/app"⟩
    ∧ (TestContext.mk (some ⟨none, [], [], [], none⟩) [] [] [] none).getApplicationPath
      = .error ⟨"getApplicationPath not set"⟩ :=
  ⟨(getApplicationPath_nearest _).1.trans rfl, (getApplicationPath_nearest _).1.trans rfl⟩

/-! ## Reference paths -/

theorem getReferencePath_resolved (c : TestContext) (os_family : String) (Exists : Path → Bool)
    (path : Path) :
    c.getReferencePath os_family Exists path PathResolution.platform_specific =
      (c.getReferenceDirectory "(default)").map (fun directory =>
        if Exists (directory / platform_specific_path os_family path) then
          directory / platform_specific_path os_family path
        else if os_family = "linux" ∨ os_family = "cygwin" then
          if Exists (directory / platform_specific_path "unix" path) then
            directory / platform_specific_path "unix" path
          else directory / path
        else directory / path) := by
  unfold TestContext.getReferencePath TestContext.getReferenceDirectoryDefault
  cases hd : c.getReferenceDirectory "(default)" with
  | error e => rfl
  | ok directory =>
    simp only [Except.map]
    rw [if_neg (by decide)]
    show (if (!Exists (directory / platform_specific_path os_family path)) = true then _ else _) = _
    by_cases h1 : Exists (directory / platform_specific_path os_family path) = true
    · simp only [h1, if_true]
      rfl
    · simp only [Bool.not_eq_true] at h1
      simp only [h1, Bool.not_false, if_true]
      by_cases hf : os_family = "linux" ∨ os_family = "cygwin"
      · rw [if_pos hf, if_pos hf]
        show (if (!Exists (directory / platform_specific_path "unix" path)) = true then _ else _) = _
        by_cases h2 : Exists (directory / platform_specific_path "unix" path) = true
        · simp only [h2, if_true]
          rfl
        · simp only [Bool.not_eq_true] at h2
          simp only [h2, Bool.not_false, if_true]
          rfl
      · rw [if_neg hf, if_neg hf]
        rfl

/-- C5: with resolution requested, on family linux and likewise on family
cygwin, `getReferencePath` fails when the default reference directory does
not resolve, and otherwise returns, under that directory: the family-qualified
candidate if the probe finds it; else the unix-qualified candidate if the
probe finds it; else the base path as given. For the base "foo.expected" the
two candidates are "foo.linux.expected" and "foo.unix.expected". -/
theorem getReferencePath_linux_three_tiers (c : TestContext) (Exists : Path → Bool)
    (path : Path) :
    (∀ family, family ∈ ["linux", "cygwin"] →
      c.getReferencePath family Exists path PathResolution.platform_specific =
        (c.getReferenceDirectory "(default)").map (fun directory =>
          if Exists (directory / platform_specific_path family path) then
            directory / platform_specific_path family path
          else if Exists (directory / platform_specific_path "unix" path) then
            directory / platform_specific_path "unix" path
          else directory / path))
    ∧ platform_specific_path "linux" ⟨"foo.expected"⟩ = ⟨"foo.linux.expected"⟩
    ∧ platform_specific_path "unix" ⟨"foo.expected"⟩ = ⟨"foo.unix.expected"⟩ := by
  refine ⟨?_, rfl, rfl⟩
  intro family hfamily
  have hf : family = "linux" ∨ family = "cygwin" := by
    simpa using hfamily
  rw [getReferencePath_resolved]
  congr 1
  funext directory
  rw [if_pos hf]

/-- The witness of C5: on linux, under the reference directory "ref", with
only "ref/foo.unix.expected" on the filesystem, "foo.expected" resolves to
"ref/foo.unix.expected". -/
theorem getReferencePath_linux_three_tiers_witness :
    (TestContext.mk none [] [("(default)", ⟨"ref"⟩)] [] none).getReferencePath "linux"
        (fun p => p == ⟨"ref/foo.unix.expected"⟩) ⟨"foo.expected"⟩
        PathResolution.platform_specific
      = .ok ⟨"ref/foo.unix.expected"⟩ :=
  ((getReferencePath_linux_three_tiers ⟨none, [], [("(default)", ⟨"ref"⟩)], [], none⟩
    (fun p => p == ⟨"ref/foo.unix.expected"⟩) ⟨"foo.expected"⟩).1 "linux"
    (List.mem_cons_self _ _)).trans rfl

theorem lastElement_append (dir name : List Char)
    (hd : dir.getLast? = none ∨ dir.getLast? = some '/')
    (hn : ∀ c ∈ name, is_separator c = false) :
    lastElement (dir ++ name) = name := by
  unfold lastElement
  rw [List.reverse_append, List.takeWhile_append_of_pos]
  · have : dir.reverse.takeWhile (fun c => !is_separator c) = [] := by
      rcases hd with hd | hd
      · rw [List.getLast?_eq_none_iff] at hd
        subst hd
        rfl
      · rw [← List.head?_reverse] at hd
        cases hr : dir.reverse with
        | nil => rfl
        | cons a l =>
          rw [hr] at hd
          simp only [List.head?_cons, Option.some.injEq] at hd
          subst hd
          rfl
    rw [this, List.append_nil, List.reverse_reverse]
  · intro a ha
    rw [List.mem_reverse] at ha
    simp [hn a ha]

theorem extensionOfName_dot (stem ext : List Char)
    (hext : ∀ c ∈ ext, c ≠ '.')
    (h1 : stem ++ '.' :: ext ≠ ['.']) (h2 : stem ++ '.' :: ext ≠ ['.', '.']) :
    extensionOfName (stem ++ '.' :: ext) = '.' :: ext := by
  unfold extensionOfName
  rw [if_neg (by simp [h1, h2]), if_pos (by simp)]
  rw [List.reverse_append, List.reverse_cons, List.append_assoc,
    List.takeWhile_append_of_pos]
  · simp
  · intro a ha
    rw [List.mem_reverse] at ha
    simpa using hext a ha

theorem extensionOfName_none (name : List Char)
    (h : (∀ c ∈ name, c ≠ '.') ∨ name = ['.'] ∨ name = ['.', '.']) :
    extensionOfName name = [] := by
  unfold extensionOfName
  rcases h with h | h | h
  · by_cases hs : name = ['.'] ∨ name = ['.', '.']
    · rw [if_pos hs]
    · rw [if_neg hs, if_neg]
      intro hm
      exact h _ hm rfl
  · rw [if_pos (Or.inl h)]
  · rw [if_pos (Or.inr h)]

theorem extension_of_dotted (dir stem ext : List Char)
    (hd : dir.getLast? = none ∨ dir.getLast? = some '/')
    (hstem : ∀ c ∈ stem, is_separator c = false)
    (hext : ∀ c ∈ ext, is_separator c = false ∧ c ≠ '.')
    (h1 : stem ++ '.' :: ext ≠ ['.']) (h2 : stem ++ '.' :: ext ≠ ['.', '.']) :
    Path.extension ⟨⟨dir ++ (stem ++ '.' :: ext)⟩⟩ = ⟨⟨'.' :: ext⟩⟩ := by
  unfold Path.extension
  simp only
  rw [lastElement_append dir _ hd, extensionOfName_dot stem ext (fun c hc => (hext c hc).2) h1 h2]
  intro c hc
  rcases List.mem_append.1 hc with h | h
  · exact hstem c h
  · rcases List.mem_cons.1 h with h | h
    · subst h; rfl
    · exact (hext c h).1

theorem extension_of_plain (dir name : List Char)
    (hd : dir.getLast? = none ∨ dir.getLast? = some '/')
    (hname : ∀ c ∈ name, is_separator c = false)
    (h : (∀ c ∈ name, c ≠ '.') ∨ name = ['.'] ∨ name = ['.', '.']) :
    Path.extension ⟨⟨dir ++ name⟩⟩ = ⟨⟨[]⟩⟩ := by
  unfold Path.extension
  simp only
  rw [lastElement_append dir _ hd hname, extensionOfName_none name h]

theorem platform_specific_path_dotted (f dir stem ext : List Char)
    (hf : isFamilyName ⟨f⟩ = true)
    (hd : dir.getLast? = none ∨ dir.getLast? = some '/')
    (hstem : ∀ c ∈ stem, is_separator c = false)
    (hext : ∀ c ∈ ext, is_separator c = false ∧ c ≠ '.')
    (h1 : stem ++ '.' :: ext ≠ ['.']) (h2 : stem ++ '.' :: ext ≠ ['.', '.']) :
    platform_specific_path ⟨f⟩ ⟨⟨dir ++ (stem ++ '.' :: ext)⟩⟩
      = ⟨⟨dir ++ (stem ++ '.' :: (f ++ '.' :: ext))⟩⟩ := by
  have hE := extension_of_dotted dir stem ext hd hstem hext h1 h2
  unfold platform_specific_path Path.has_extension
  rw [hE]
  simp only [Path.empty, List.isEmpty_cons, Bool.not_false, if_true]
  unfold Path.replace_extension
  rw [hE]
  cases f with
  | nil => simp [isFamilyName] at hf
  | cons c cs =>
    have hc : (c != '.') = true := by simpa [isFamilyName] using hf
    simp only [String.data_append, List.cons_append, hc, if_true]
    congr 2
    simp [← List.append_assoc]

theorem platform_specific_path_plain (f dir name : List Char)
    (hf : isFamilyName ⟨f⟩ = true)
    (hd : dir.getLast? = none ∨ dir.getLast? = some '/')
    (hname : ∀ c ∈ name, is_separator c = false)
    (h : (∀ c ∈ name, c ≠ '.') ∨ name = ['.'] ∨ name = ['.', '.']) :
    platform_specific_path ⟨f⟩ ⟨⟨dir ++ name⟩⟩ = ⟨⟨dir ++ (name ++ '.' :: f)⟩⟩ := by
  have hE := extension_of_plain dir name hd hname h
  unfold platform_specific_path Path.has_extension
  rw [hE]
  simp only [Path.empty, List.isEmpty_nil, Bool.not_true, if_false, Bool.false_eq_true]
  unfold Path.replace_extension
  rw [hE]
  cases f with
  | nil => simp [isFamilyName] at hf
  | cons c cs =>
    have hc : (c != '.') = true := by simpa [isFamilyName] using hf
    simp only [hc, if_true]
    congr 2
    have : List.take ((dir ++ name).length - ([] : List Char).length) (dir ++ name) = dir ++ name := by
      simp
    rw [this, List.append_assoc]

theorem isNamePart_mem (name : String) (h : isNamePart name = true) :
    ∀ c ∈ name.data, is_separator c = false := by
  intro c hc
  have := List.all_eq_true.1 h c hc
  simpa using this

theorem isPlainPart_mem (ext : String) (h : isPlainPart ext = true) :
    ∀ c ∈ ext.data, is_separator c = false ∧ c ≠ '.' := by
  intro c hc
  have := List.all_eq_true.1 h c hc
  simpa using this

theorem isDirectoryPart_getLast (dir : String) (h : isDirectoryPart dir = true) :
    dir.data.getLast? = none ∨ dir.data.getLast? = some '/' := by
  unfold isDirectoryPart at h
  cases hl : dir.data.getLast? with
  | none => exact Or.inl rfl
  | some c =>
    rw [hl] at h
    simp only [is_separator, beq_iff_eq] at h
    exact Or.inr (by rw [h])

theorem split_lastElement (s : List Char) :
    ∃ dir name, s = dir ++ name
      ∧ (dir.getLast? = none ∨ dir.getLast? = some '/')
      ∧ (∀ c ∈ name, is_separator c = false) := by
  refine ⟨(s.reverse.dropWhile (fun c => !is_separator c)).reverse,
    (s.reverse.takeWhile (fun c => !is_separator c)).reverse, ?_, ?_, ?_⟩
  · rw [← List.reverse_append, List.takeWhile_append_dropWhile, List.reverse_reverse]
  · rw [List.getLast?_reverse]
    have h := List.head?_dropWhile_not (fun c => !is_separator c) s.reverse
    cases hd : (s.reverse.dropWhile (fun c => !is_separator c)).head? with
    | none => exact Or.inl rfl
    | some c =>
      rw [hd] at h
      simp only [Bool.not_eq_true, Bool.not_eq_false_eq_eq_true, is_separator, beq_iff_eq,
        Bool.not_eq_eq_eq_not, Bool.not_true, Bool.not_false] at h
      exact Or.inr (by rw [h])
  · intro c hc
    rw [List.mem_reverse] at hc
    have := List.mem_takeWhile_imp hc
    simpa using this

theorem split_last_dot (name : List Char) (hn : ∀ c ∈ name, is_separator c = false) :
    (∀ c ∈ name, c ≠ '.')
    ∨ ∃ stem ext, name = stem ++ '.' :: ext
        ∧ (∀ c ∈ stem, is_separator c = false)
        ∧ (∀ c ∈ ext, is_separator c = false ∧ c ≠ '.') := by
  by_cases hdot : ∀ c ∈ name, c ≠ '.'
  · exact Or.inl hdot
  · right
    have hsplit : name = (name.reverse.dropWhile (fun c => c != '.')).reverse
        ++ (name.reverse.takeWhile (fun c => c != '.')).reverse := by
      rw [← List.reverse_append, List.takeWhile_append_dropWhile, List.reverse_reverse]
    have hext : ∀ c ∈ (name.reverse.takeWhile (fun c => c != '.')).reverse,
        is_separator c = false ∧ c ≠ '.' := by
      intro c hc
      rw [List.mem_reverse] at hc
      refine ⟨hn c (List.mem_reverse.1 ((List.takeWhile_sublist _).subset hc)), ?_⟩
      simpa using List.mem_takeWhile_imp hc
    cases hd : name.reverse.dropWhile (fun c => c != '.') with
    | nil =>
      exfalso
      apply hdot
      intro c hc
      rw [hd] at hsplit
      rw [hsplit] at hc
      exact (hext c (by simpa using hc)).2
    | cons d rest =>
      have h := List.head?_dropWhile_not (fun c => c != '.') name.reverse
      rw [hd] at h
      simp only [List.head?_cons, bne_iff_ne, ne_eq, Bool.not_eq_true, bne_eq_false_iff_eq] at h
      subst h
      refine ⟨rest.reverse, (name.reverse.takeWhile (fun c => c != '.')).reverse, ?_, ?_, hext⟩
      · rw [hd] at hsplit
        rw [List.reverse_cons, List.append_assoc] at hsplit
        exact hsplit
      · intro c hc
        apply hn
        have : c ∈ name.reverse.dropWhile (fun c => c != '.') := by
          rw [hd]
          exact List.mem_cons_of_mem _ (List.mem_reverse.1 hc)
        exact List.mem_reverse.1 ((List.dropWhile_sublist _).subset this)

theorem path_forms (path : Path) :
    ∃ dir : String, isDirectoryPart dir = true
      ∧ ((∃ stem ext : String, path = ⟨dir ++ stem ++ "." ++ ext⟩
            ∧ isNamePart stem = true ∧ isPlainPart ext = true
            ∧ stem ++ "." ++ ext ≠ "." ∧ stem ++ "." ++ ext ≠ "..")
        ∨ (∃ name : String, path = ⟨dir ++ name⟩ ∧ isNamePart name = true
            ∧ (isPlainPart name = true ∨ name = "." ∨ name = ".."))) := by
  obtain ⟨dir, name, hs, hdir, hname⟩ := split_lastElement path.m_pathname.data
  have hdirPart : isDirectoryPart ⟨dir⟩ = true := by
    unfold isDirectoryPart
    rcases hdir with h | h
    · simp only [h]
    · simp only [h]; rfl
  have hnamePart : isNamePart ⟨name⟩ = true := by
    unfold isNamePart
    rw [List.all_eq_true]
    intro c hc
    simp [hname c hc]
  have hpath : path = ⟨(⟨dir⟩ : String) ++ ⟨name⟩⟩ := by
    cases path with
    | mk m_pathname => exact congrArg Path.mk (String.ext (by simpa using hs))
  refine ⟨⟨dir⟩, hdirPart, ?_⟩
  rcases split_last_dot name hname with hplain | ⟨stem, ext, hne, hstem, hext⟩
  · right
    refine ⟨⟨name⟩, hpath, hnamePart, Or.inl ?_⟩
    unfold isPlainPart
    rw [List.all_eq_true]
    intro c hc
    simp [hname c hc, hplain c hc]
  · by_cases hspecial : (⟨name⟩ : String) = "." ∨ (⟨name⟩ : String) = ".."
    · right
      exact ⟨⟨name⟩, hpath, hnamePart, Or.inr hspecial⟩
    · left
      have hn : (⟨name⟩ : String) = (⟨stem⟩ : String) ++ "." ++ ⟨ext⟩ :=
        String.ext (by simpa using hne)
      refine ⟨⟨stem⟩, ⟨ext⟩, ?_, ?_, ?_, ?_, ?_⟩
      · rw [hpath, hn]
        exact congrArg Path.mk (String.ext (by simp))
      · unfold isNamePart
        rw [List.all_eq_true]
        intro c hc
        simp [hstem c hc]
      · unfold isPlainPart
        rw [List.all_eq_true]
        intro c hc
        simp [(hext c hc).1, (hext c hc).2]
      · rw [← hn]
        exact fun h => hspecial (Or.inl h)
      · rw [← hn]
        exact fun h => hspecial (Or.inr h)

/-- C6: for a family name `f` (non-empty, not starting with a dot) and a base
path made of a directory part `dir` followed by a file name, the
platform-qualified candidate keeps `dir` and changes only the file name: a
name `stem.ext`, where `ext` is the part after the last dot, becomes
`stem.f.ext` (so `a.b.ext` becomes `a.b.f.ext`), and a name without an
extension (no dot in it, or one of the names "." and "..") becomes
`name.f`. Every base path is of one of these two forms. -/
theorem platform_specific_path_inserts_family (f dir : String)
    (hf : isFamilyName f = true) (hdir : isDirectoryPart dir = true) :
    (∀ stem ext : String, isNamePart stem = true → isPlainPart ext = true →
      stem ++ "." ++ ext ≠ "." → stem ++ "." ++ ext ≠ ".." →
      platform_specific_path f ⟨dir ++ stem ++ "." ++ ext⟩
        = ⟨dir ++ stem ++ "." ++ f ++ "." ++ ext⟩)
    ∧ (∀ name : String, isNamePart name = true →
      (isPlainPart name = true ∨ name = "." ∨ name = "..") →
      platform_specific_path f ⟨dir ++ name⟩ = ⟨dir ++ name ++ "." ++ f⟩)
    ∧ (∀ path : Path, ∃ dir : String, isDirectoryPart dir = true
      ∧ ((∃ stem ext : String, path = ⟨dir ++ stem ++ "." ++ ext⟩
            ∧ isNamePart stem = true ∧ isPlainPart ext = true
            ∧ stem ++ "." ++ ext ≠ "." ∧ stem ++ "." ++ ext ≠ "..")
        ∨ (∃ name : String, path = ⟨dir ++ name⟩ ∧ isNamePart name = true
            ∧ (isPlainPart name = true ∨ name = "." ∨ name = "..")))) := by
  have hd := isDirectoryPart_getLast dir hdir
  refine ⟨?_, ?_, path_forms⟩
  · intro stem ext hstem hext h1 h2
    have key := platform_specific_path_dotted f.data dir.data stem.data ext.data hf hd
      (isNamePart_mem stem hstem) (isPlainPart_mem ext hext)
      (fun h => h1 (String.ext (by simpa using h)))
      (fun h => h2 (String.ext (by simpa using h)))
    rw [show (⟨dir ++ stem ++ "." ++ ext⟩ : Path) = ⟨⟨dir.data ++ (stem.data ++ '.' :: ext.data)⟩⟩ from
      congrArg Path.mk (String.ext (by simp)), key]
    exact congrArg Path.mk (String.ext (by simp))
  · intro name hname h
    have key := platform_specific_path_plain f.data dir.data name.data hf hd
      (isNamePart_mem name hname)
      (by
        rcases h with h | h | h
        · exact Or.inl (fun c hc => (isPlainPart_mem name h c hc).2)
        · exact Or.inr (Or.inl (by rw [h]))
        · exact Or.inr (Or.inr (by rw [h])))
    rw [show (⟨dir ++ name⟩ : Path) = ⟨⟨dir.data ++ name.data⟩⟩ from
      congrArg Path.mk (String.ext (by simp)), key]
    exact congrArg Path.mk (String.ext (by simp))

/-- The witness of C6: "foo.expected" becomes "foo.linux.expected" on linux,
"out/a.b.ext" becomes "out/a.b.linux.ext", and "out/name" becomes
"out/name.linux". -/
theorem platform_specific_path_inserts_family_witness :
    platform_specific_path "linux" ⟨"foo.expected"⟩ = ⟨"foo.linux.expected"⟩
    ∧ platform_specific_path "linux" ⟨"out/a.b.ext"⟩ = ⟨"out/a.b.linux.ext"⟩
    ∧ platform_specific_path "linux" ⟨"out/name"⟩ = ⟨"out/name.linux"⟩ :=
  ⟨(platform_specific_path_inserts_family "linux" "" rfl rfl).1 "foo" "expected" rfl rfl
      (by decide) (by decide),
   (platform_specific_path_inserts_family "linux" "out/" rfl rfl).1 "a.b" "ext" rfl rfl
      (by decide) (by decide),
   (platform_specific_path_inserts_family "linux" "out/" rfl rfl).2.1 "name" rfl (Or.inl rfl)⟩

/-! ## The harness -/

theorem runTestsTry_eq (h : TestHarness) (env : Collaborators) (out : Console) :
    h.runTestsTry env out =
      match env.cout out "" with
      | .error e => .error e
      | .ok out1 =>
        match env.run h.m_topSequence out1 with
        | .error e => .error e
        | .ok r => (h.finished r.1).afterRun env r.2 := by
  unfold TestHarness.runTestsTry
  cases h1 : env.cout out "" with
  | error e => rfl
  | ok out1 =>
    simp only [bind, Except.bind]
    cases h2 : env.run h.m_topSequence out1 with
    | error e => rfl
    | ok r => rfl

theorem afterRun_eq (h : TestHarness) (env : Collaborators) (out : Console) :
    h.afterRun env out =
      match h.printing env out with
      | .error e => .error e
      | .ok _ =>
        match h.m_junitXMLTestReport with
        | none => .ok h.verdict
        | some path =>
          match h.writeJUnitXMLTestReport env path with
          | .error e => .error e
          | .ok _ => .ok h.verdict := by
  unfold TestHarness.afterRun TestHarness.printing TestHarness.verdict
  cases h1 : env.cout out "" with
  | error e => rfl
  | ok o1 =>
    cases h2 : h.printDetailedResults env o1 with
    | error e => simp only [bind, Except.bind, h2]
    | ok o2 =>
      cases h3 : h.printSummary env o2 with
      | error e => simp only [bind, Except.bind, h2, h3]
      | ok o3 =>
        simp only [bind, Except.bind, h2, h3]
        cases h.m_junitXMLTestReport with
        | none =>
          simp only [pure, Except.pure]
          split <;> rfl
        | some path =>
          simp only
          cases h.writeJUnitXMLTestReport env path with
          | error e => rfl
          | ok calls =>
            simp only [pure, Except.pure]
            split <;> rfl

theorem runTests_eq (h : TestHarness) (env : Collaborators) (out : Console) :
    h.runTests env out =
      match h.runTestsTry env out with
      | .error _ => .ok TestApplicationReturnCode.exception
      | .ok code => .ok code := by
  unfold TestHarness.runTests
  cases h.runTestsTry env out <;> rfl

theorem runTests_of_finished (h : TestHarness) (env : Collaborators) (out out1 out2 : Console)
    (topSequence : Test)
    (hcout : env.cout out "" = .ok out1)
    (hrun : env.run h.m_topSequence out1 = .ok (topSequence, out2)) :
    h.runTests env out =
      match (h.finished topSequence).afterRun env out2 with
      | .error _ => .ok TestApplicationReturnCode.exception
      | .ok code => .ok code := by
  rw [runTests_eq, runTestsTry_eq, hcout]
  simp only [hrun]

/-- C7: when nothing throws in the try block of `runTests`, the root sequence
has run and left a tree, and `runTests` returns testFailure if and only if the
root of that tree is neither passed nor skipped; in every other case it
returns ok, and in particular it returns ok for a skipped root. -/
theorem runTests_verdict (h : TestHarness) (env : Collaborators) (out : Console)
    (hnothrow : ∃ code, h.runTestsTry env out = .ok code) :
    ∃ out1 topSequence out2,
      env.cout out "" = .ok out1
      ∧ env.run h.m_topSequence out1 = .ok (topSequence, out2)
      ∧ (h.runTests env out = .ok TestApplicationReturnCode.testFailure
          ↔ (topSequence.passed = false ∧ topSequence.skipped = false))
      ∧ (¬ (topSequence.passed = false ∧ topSequence.skipped = false)
          → h.runTests env out = .ok TestApplicationReturnCode.ok)
      ∧ (topSequence.skipped = true → h.runTests env out = .ok TestApplicationReturnCode.ok) := by
  obtain ⟨code, hcode⟩ := hnothrow
  rw [runTestsTry_eq] at hcode
  cases hcout : env.cout out "" with
  | error e => rw [hcout] at hcode; cases hcode
  | ok out1 =>
    rw [hcout] at hcode
    cases hrun : env.run h.m_topSequence out1 with
    | error e => simp only [hrun] at hcode; cases hcode
    | ok r =>
      obtain ⟨topSequence, out2⟩ := r
      simp only [hrun] at hcode
      have hres := runTests_of_finished h env out out1 out2 topSequence hcout hrun
      rw [hcode] at hres
      have hverdict : code = (h.finished topSequence).verdict := by
        rw [afterRun_eq] at hcode
        cases hp : (h.finished topSequence).printing env out2 with
        | error e => rw [hp] at hcode; cases hcode
        | ok o =>
          rw [hp] at hcode
          cases hr : (h.finished topSequence).m_junitXMLTestReport with
          | none => rw [hr] at hcode; cases hcode; rfl
          | some path =>
            rw [hr] at hcode
            cases hw : (h.finished topSequence).writeJUnitXMLTestReport env path with
            | error e => simp only [hw] at hcode; cases hcode
            | ok calls => simp only [hw] at hcode; cases hcode; rfl
      refine ⟨out1, topSequence, out2, rfl, hrun, ?_⟩
      simp only [hres, hverdict, TestHarness.verdict, TestHarness.finished]
      rcases Bool.eq_false_or_eq_true topSequence.passed with hp | hp <;>
        rcases Bool.eq_false_or_eq_true topSequence.skipped with hs | hs <;>
        simp [hp, hs]

/-- The witness of C7: a harness whose root sequence ends skipped, with
collaborators that never throw, returns ok. -/
theorem runTests_verdict_witness :
    TestHarness.runTests ⟨none, ⟨none, [], [], [], none⟩, Test.sequence "suite" TestResult.unknown [], true⟩
      ⟨standardCout, fun _ out => pure (Test.sequence "suite" TestResult.skipped [], out),
        fun _ => "", fun _ _ => "", fun p => p, fun _ => pure (), fun _ => pure false,
        fun _ _ => pure ()⟩ []
      = .ok TestApplicationReturnCode.ok := by
  obtain ⟨out1, topSequence, out2, h1, h2, -, -, h5⟩ := runTests_verdict
    ⟨none, ⟨none, [], [], [], none⟩, Test.sequence "suite" TestResult.unknown [], true⟩
    ⟨standardCout, fun _ out => pure (Test.sequence "suite" TestResult.skipped [], out),
      fun _ => "", fun _ _ => "", fun p => p, fun _ => pure (), fun _ => pure false,
      fun _ _ => pure ()⟩ [] ⟨TestApplicationReturnCode.ok, rfl⟩
  cases h1
  cases h2
  exact h5 rfl

/-- C8: whatever the collaborators do, `runTests` throws nothing and returns
one of the codes ok, testFailure and exception; it returns exception whenever
its try block throws, and so whenever the run of the root sequence throws. -/
theorem runTests_never_throws (h : TestHarness) (env : Collaborators) (out : Console) :
    (∃ code, h.runTests env out = .ok code
      ∧ (code = TestApplicationReturnCode.ok ∨ code = TestApplicationReturnCode.testFailure
          ∨ code = TestApplicationReturnCode.exception))
    ∧ (∀ e, h.runTestsTry env out = .error e
        → h.runTests env out = .ok TestApplicationReturnCode.exception)
    ∧ (∀ out1 e, env.cout out "" = .ok out1 → env.run h.m_topSequence out1 = .error e
        → h.runTests env out = .ok TestApplicationReturnCode.exception) := by
  refine ⟨?_, ?_, ?_⟩
  · rw [runTests_eq]
    cases h.runTestsTry env out with
    | error e => exact ⟨_, rfl, Or.inr (Or.inr rfl)⟩
    | ok code => exact ⟨code, rfl, by cases code <;> simp⟩
  · intro e he
    rw [runTests_eq, he]
  · intro out1 e hcout hrun
    rw [runTests_eq, runTestsTry_eq, hcout]
    simp only [hrun]

/-- An instance of C8: when the run of the root sequence throws, `runTests`
returns exception. -/
theorem runTests_never_throws_witness :
    reportHarness.runTests { quietCollaborators with run := fun _ _ => throw ⟨"run"⟩ } []
      = .ok TestApplicationReturnCode.exception :=
  (runTests_never_throws reportHarness
    { quietCollaborators with run := fun _ _ => throw ⟨"run"⟩ } []).2.2 [""] ⟨"run"⟩ rfl rfl

/-- C9, as the code has it: with a report path configured and the root
sequence run, a failure thrown by the report-writer step is caught by
`runTests`, which returns exception; when the report-writer step throws
nothing, `runTests` returns what it returns without a report path. -/
theorem runTests_report_step (h : TestHarness) (env : Collaborators) (out out1 out2 : Console)
    (topSequence : Test) (path : String)
    (hpath : h.m_junitXMLTestReport = some path)
    (hcout : env.cout out "" = .ok out1)
    (hrun : env.run h.m_topSequence out1 = .ok (topSequence, out2)) :
    (∀ e, (h.finished topSequence).writeJUnitXMLTestReport env path = .error e
      → h.runTests env out = .ok TestApplicationReturnCode.exception)
    ∧ (∀ calls, (h.finished topSequence).writeJUnitXMLTestReport env path = .ok calls
      → h.runTests env out = TestHarness.runTests { h with m_junitXMLTestReport := none } env out) := by
  have h1 := runTests_of_finished h env out out1 out2 topSequence hcout hrun
  have h2 := runTests_of_finished { h with m_junitXMLTestReport := none } env out out1 out2
    topSequence hcout hrun
  rw [afterRun_eq] at h1 h2
  have hr : (h.finished topSequence).m_junitXMLTestReport = some path := hpath
  have hp : TestHarness.printing
      (TestHarness.finished { h with m_junitXMLTestReport := none } topSequence) env out2
      = (h.finished topSequence).printing env out2 := rfl
  rw [hr] at h1
  rw [hp] at h2
  constructor
  · intro e he
    rw [h1]
    cases (h.finished topSequence).printing env out2 with
    | error e2 => rfl
    | ok o => simp only [he]
  · intro calls hcalls
    rw [h1, h2]
    cases (h.finished topSequence).printing env out2 with
    | error e2 => rfl
    | ok o => simp only [hcalls]; rfl

/-- The witness of the amended C9: with collaborators that never throw, the
harness with the report path "out/report.xml" returns what it returns without
a report path. -/
theorem runTests_report_step_witness :
    reportHarness.runTests quietCollaborators []
      = TestHarness.runTests { reportHarness with m_junitXMLTestReport := none }
          quietCollaborators [] :=
  (runTests_report_step reportHarness quietCollaborators [] [""] [""] passedTree
    "out/report.xml" rfl rfl rfl).2 _ rfl

/-- The counterexample to C9: the one test passes, and `create_directories`
throws while the report is written; `runTests` returns exception, where it
returns ok for the same tree without a report path. -/
theorem runTests_report_failure_changes_code :
    reportHarness.runTests failingReportCollaborators []
      = .ok TestApplicationReturnCode.exception
    ∧ TestHarness.runTests { reportHarness with m_junitXMLTestReport := none }
        failingReportCollaborators [] = .ok TestApplicationReturnCode.ok
    ∧ reportHarness.runTests failingReportCollaborators []
      ≠ TestHarness.runTests { reportHarness with m_junitXMLTestReport := none }
          failingReportCollaborators [] := by
  have h1 : reportHarness.runTests failingReportCollaborators []
      = .ok TestApplicationReturnCode.exception := rfl
  have h2 : TestHarness.runTests { reportHarness with m_junitXMLTestReport := none }
      failingReportCollaborators [] = .ok TestApplicationReturnCode.ok := rfl
  refine ⟨h1, h2, ?_⟩
  rw [h1, h2]
  intro h
  cases h

theorem foldlM_printDetailedResultsVisitor (env : Collaborators) (tests : List Test) (out : Console) :
    tests.foldlM (printDetailedResultsVisitor { env with cout := standardCout }) out =
      .ok (out ++ (tests.filter (fun t => !t.passed && t.leafOrEmpty)).map
        (fun t => t.name ++ " " ++ env.ToString t.result)) := by
  induction tests generalizing out with
  | nil => simp [List.foldlM, pure, Except.pure]
  | cons t ts ih =>
    rw [List.foldlM_cons]
    have hv : printDetailedResultsVisitor { env with cout := standardCout } out t =
        .ok (if (!t.passed && t.leafOrEmpty) = true
          then out ++ [t.name ++ " " ++ env.ToString t.result] else out) := by
      unfold printDetailedResultsVisitor
      cases t with
      | test name result =>
        cases hp : (Test.test name result).passed <;>
          simp [Test.asSequence, Test.leafOrEmpty, standardCout, pure, Except.pure]
      | sequence name result m_tests =>
        cases hp : (Test.sequence name result m_tests).passed <;> cases m_tests <;>
          simp [Test.asSequence, Test.leafOrEmpty, standardCout, pure, Except.pure]
    rw [hv]
    simp only [bind, Except.bind]
    rw [ih]
    by_cases hc : (!t.passed && t.leafOrEmpty) = true
    · simp [hc, List.filter_cons]
    · simp [hc, List.filter_cons]

/-- C10: on a stream that takes every line, `printDetailedResults` adds to
the output, in the order of the traversal, exactly one line, the name, a
blank and the result, for each traversed node that has not passed and is a
leaf or a sequence without children. A node whose result is unknown or skipped
has not passed; a sequence with at least one child, and a node that passed,
never pass the test that selects the lines. -/
theorem printDetailedResults_lines (h : TestHarness) (env : Collaborators) (out : Console) :
    h.printDetailedResults { env with cout := standardCout } out =
      .ok (out ++ (h.m_topSequence.traverse.filter (fun t => !t.passed && t.leafOrEmpty)).map
        (fun t => t.name ++ " " ++ env.ToString t.result))
    ∧ (∀ t : Test, t.result = TestResult.unknown ∨ t.result = TestResult.skipped
        → t.passed = false)
    ∧ (∀ name result child rest,
        (!(Test.sequence name result (child :: rest)).passed
          && (Test.sequence name result (child :: rest)).leafOrEmpty) = false)
    ∧ (∀ t : Test, t.passed = true → (!t.passed && t.leafOrEmpty) = false) := by
  refine ⟨foldlM_printDetailedResultsVisitor env _ out, ?_, ?_, ?_⟩
  · intro t ht
    rcases ht with ht | ht <;> simp [Test.passed, ht]
  · intro name result child rest
    simp [Test.leafOrEmpty]
  · intro t ht
    simp [ht]

/-- An instance of C10: of a failed leaf, a passed leaf, an empty sequence and
a skipped sequence with one skipped leaf, under a failed root, the failed
leaf, the empty sequence and the skipped leaf are printed, in this order. -/
theorem printDetailedResults_lines_witness :
    TestHarness.printDetailedResults
      ⟨none, ⟨none, [], [], [], none⟩,
        Test.sequence "suite" TestResult.failed
          [Test.test "a" TestResult.failed, Test.test "b" TestResult.passed,
            Test.sequence "c" TestResult.unknown [],
            Test.sequence "d" TestResult.skipped [Test.test "e" TestResult.skipped]], true⟩
      { quietCollaborators with
        ToString := fun r => if r = TestResult.failed then "failed" else "other" } []
      = .ok ["a failed", "c other", "e other"] :=
  (printDetailedResults_lines _
    { quietCollaborators with
      ToString := fun r => if r = TestResult.failed then "failed" else "other" } []).1.trans rfl

/-! ## Setters and paths -/

theorem lookup_mapAssign_self (m : List (String × Path)) (id : String) (path : Path) :
    (mapAssign m id path).lookup id = some path := by
  induction m with
  | nil => simp [mapAssign, List.lookup]
  | cons entry rest ih =>
    obtain ⟨key, value⟩ := entry
    by_cases h : id = key
    · subst h
      simp [mapAssign, List.lookup]
    · have hb : (id == key) = false := by simpa using h
      simp [mapAssign, List.lookup, hb, ih]

theorem lookup_mapAssign_ne (m : List (String × Path)) (id other : String) (path : Path)
    (hne : other ≠ id) :
    (mapAssign m id path).lookup other = m.lookup other := by
  have hb : (other == id) = false := by simpa using hne
  induction m with
  | nil => simp [mapAssign, List.lookup, hb]
  | cons entry rest ih =>
    obtain ⟨key, value⟩ := entry
    by_cases h : id = key
    · subst h
      simp [mapAssign, List.lookup, hb]
    · have hk : (id == key) = false := by simpa using h
      simp only [mapAssign, hk, List.lookup]
      cases other == key <;> simp [ih]

theorem setDirectory_parent (c : TestContext) (expand : String → String) (role : Role)
    (id : String) (path : Path) :
    (c.setDirectory expand role id path).m_parent = c.m_parent := by
  cases role <;> rfl

theorem setDirectory_lookup_self (c : TestContext) (expand : String → String) (role : Role)
    (id : String) (path : Path) :
    ((c.setDirectory expand role id path).localDirectories role).lookup id
      = some ⟨expand path.m_pathname⟩ := by
  cases role <;> exact lookup_mapAssign_self _ _ _

theorem setDirectory_getDirectory_root_aux (c : TestContext) (expand : String → String)
    (role : Role) (id : String) (p : Path) (hroot : c.m_parent = none) :
    (c.setDirectory expand role id p).getDirectory role id = .ok ⟨expand p.m_pathname⟩ := by
  rw [getDirectory_of_root _ role id ((setDirectory_parent c expand role id p).trans hroot),
    setDirectory_lookup_self]

/-- C13: on a context with no parent, after `setDirectory(role, id, p)` the
getter of the role returns, for `id`, the path the expander makes of `p`, so
`p` itself when the expander leaves `p` as it is; a later `setDirectory` for
the same role and id replaces the value an earlier one stored. -/
theorem setDirectory_getDirectory_root (c : TestContext) (expand : String → String)
    (role : Role) (id : String) (p earlier : Path) (hroot : c.m_parent = none) :
    (c.setDirectory expand role id p).getDirectory role id = .ok ⟨expand p.m_pathname⟩
    ∧ (expand p.m_pathname = p.m_pathname
        → (c.setDirectory expand role id p).getDirectory role id = .ok p)
    ∧ ((c.setDirectory expand role id earlier).setDirectory expand role id p).getDirectory
        role id = .ok ⟨expand p.m_pathname⟩ := by
  have key : ∀ c' : TestContext, c'.m_parent = none →
      (c'.setDirectory expand role id p).getDirectory role id = .ok ⟨expand p.m_pathname⟩ := by
    intro c' hc'
    rw [getDirectory_of_root _ role id ((setDirectory_parent c' expand role id p).trans hc'),
      setDirectory_lookup_self]
  refine ⟨key c hroot, ?_, key _ ((setDirectory_parent c expand role id earlier).trans hroot)⟩
  intro h
  rw [key c hroot, h]

/-- The witness of C13: with an expander that replaces "$HOME" by "/home/u",
a root stores "/home/u"; a later set to "data" replaces it. -/
theorem setDirectory_getDirectory_root_witness :
    (TestContext.create.setDirectory (fun s => if s = "$HOME" then "/home/u" else s)
        Role.data "(default)" ⟨"$HOME"⟩).getDirectory Role.data "(default)" = .ok ⟨"/home/u"⟩
    ∧ ((TestContext.create.setDirectory (fun s => if s = "$HOME" then "/home/u" else s)
        Role.data "(default)" ⟨"$HOME"⟩).setDirectory
          (fun s => if s = "$HOME" then "/home/u" else s)
          Role.data "(default)" ⟨"data"⟩).getDirectory Role.data "(default)" = .ok ⟨"data"⟩ :=
  ⟨(setDirectory_getDirectory_root TestContext.create _ Role.data "(default)" ⟨"$HOME"⟩ ⟨""⟩
      rfl).1.trans rfl,
   (setDirectory_getDirectory_root TestContext.create _ Role.data "(default)" ⟨"data"⟩
      ⟨"$HOME"⟩ rfl).2.2.trans rfl⟩

/-- C14: `getDataPath(r)` is `getDataDirectory("(default)") / r`,
`getOutputPath(r)` is `getOutputDirectory("(default)") / r`, and
`getReferencePath(r)` with resolution mode none is
`getReferenceDirectory("(default)") / r` whatever the platform family and the
filesystem probe; each fails, with the same exception, exactly when the
resolution of its directory fails. -/
theorem getPath_eq_directory_join (c : TestContext) (r : Path) (os_family : String)
    (Exists : Path → Bool) :
    c.getDataPath r = (c.getDataDirectory "(default)").map (fun directory => directory / r)
    ∧ c.getOutputPath r = (c.getOutputDirectory "(default)").map (fun directory => directory / r)
    ∧ c.getReferencePath os_family Exists r PathResolution.none
        = (c.getReferenceDirectory "(default)").map (fun directory => directory / r)
    ∧ (∀ e, c.getDataPath r = .error e ↔ c.getDataDirectory "(default)" = .error e)
    ∧ (∀ e, c.getOutputPath r = .error e ↔ c.getOutputDirectory "(default)" = .error e)
    ∧ (∀ e, c.getReferencePath os_family Exists r PathResolution.none = .error e
        ↔ c.getReferenceDirectory "(default)" = .error e) := by
  have h1 : c.getDataPath r
      = (c.getDataDirectory "(default)").map (fun directory => directory / r) := by
    unfold TestContext.getDataPath TestContext.getDataDirectoryDefault
    cases c.getDataDirectory "(default)" <;> rfl
  have h2 : c.getOutputPath r
      = (c.getOutputDirectory "(default)").map (fun directory => directory / r) := by
    unfold TestContext.getOutputPath TestContext.getOutputDirectoryDefault
    cases c.getOutputDirectory "(default)" <;> rfl
  have h3 : c.getReferencePath os_family Exists r PathResolution.none
      = (c.getReferenceDirectory "(default)").map (fun directory => directory / r) := by
    unfold TestContext.getReferencePath TestContext.getReferenceDirectoryDefault
    rw [if_pos rfl]
    cases c.getReferenceDirectory "(default)" <;> rfl
  refine ⟨h1, h2, h3, ?_, ?_, ?_⟩
  · intro e
    rw [h1]
    cases c.getDataDirectory "(default)" <;> simp [Except.map]
  · intro e
    rw [h2]
    cases c.getOutputDirectory "(default)" <;> simp [Except.map]
  · intro e
    rw [h3]
    cases c.getReferenceDirectory "(default)" <;> simp [Except.map]

/-- An instance of C14: under the data directory "/base", "in.txt" is
"/base/in.txt"; on a context created with a parent pointer that is null and
no mapping, the data path fails as the data directory does. -/
theorem getPath_eq_directory_join_witness :
    (TestContext.mk none [("(default)", ⟨"/base"⟩)] [] [] none).getDataPath ⟨"in.txt"⟩
      = .ok ⟨"/base/in.txt"⟩
    ∧ (TestContext.createWithParent none).getDataPath ⟨"in.txt"⟩
      = .error ⟨"getDataDirectory: no directory found with id (default)"⟩ :=
  ⟨(getPath_eq_directory_join _ ⟨"in.txt"⟩ "linux" (fun _ => false)).1.trans rfl,
   (getPath_eq_directory_join _ ⟨"in.txt"⟩ "linux" (fun _ => false)).1.trans rfl⟩

/-! ## Resolution along a chain -/

theorem getDirectory_child_step (c parent : TestContext) (role : Role) (id : String)
    (hp : c.m_parent = some parent) (joined : Option Path)
    (ih : parent.getDirectory role id =
      match joined with
      | some p => .ok p
      | none => .error ⟨role.getterName ++ ": no directory found with id " ++ id⟩) :
    c.getDirectory role id =
      match joined.map (fun p =>
        match (c.localDirectories role).lookup id with
        | some second => p / second
        | none => p) with
      | some p => .ok p
      | none => .error ⟨role.getterName ++ ": no directory found with id " ++ id⟩ := by
  rw [getDirectory_of_parent c parent role id hp, ih]
  cases joined <;> cases (c.localDirectories role).lookup id <;> rfl

theorem joinedAlong_append (role : Role) (id : String) (root : TestContext)
    (descendants : List TestContext) (c : TestContext) :
    joinedAlong role id (root :: (descendants ++ [c])) =
      (joinedAlong role id (root :: descendants)).map (fun p =>
        match (c.localDirectories role).lookup id with
        | some second => p / second
        | none => p) := by
  simp only [joinedAlong]
  cases (root.localDirectories role).lookup id with
  | none => rfl
  | some first =>
    simp only [Option.map, List.filterMap_append, List.foldl_append]
    cases hc : (c.localDirectories role).lookup id with
    | none => simp [List.filterMap, hc]
    | some second => simp [List.filterMap, hc]

/-- C19: for contexts c0, c1, ..., cn where c0 has no parent and each later
one has the one before it as parent, the getter of each role, called on cn,
fails exactly when c0 has no local mapping for `id`, whatever the later
contexts map; otherwise it returns the mapping of c0 joined, from the root
down, with the local mappings for `id` of those of c1, ..., cn that have
one. -/
theorem getDirectory_closed_form (role : Role) (id : String) (c0 : TestContext)
    (descendants : List TestContext)
    (hroot : c0.m_parent = none)
    (hchain : List.Chain (fun parent child => child.m_parent = some parent) c0 descendants) :
    ((c0 :: descendants).getLast (List.cons_ne_nil _ _)).getDirectory role id =
      (match (c0.localDirectories role).lookup id with
      | none => .error ⟨role.getterName ++ ": no directory found with id " ++ id⟩
      | some first =>
        .ok ((descendants.filterMap (fun c => (c.localDirectories role).lookup id)).foldl
          (fun joined second => joined / second) first))
    ∧ ((∃ e, ((c0 :: descendants).getLast (List.cons_ne_nil _ _)).getDirectory role id = .error e)
        ↔ (c0.localDirectories role).lookup id = none) := by
  have key : ((c0 :: descendants).getLast (List.cons_ne_nil _ _)).getDirectory role id =
      match joinedAlong role id (c0 :: descendants) with
      | some p => .ok p
      | none => .error ⟨role.getterName ++ ": no directory found with id " ++ id⟩ := by
    induction descendants using List.reverseRecOn with
    | nil =>
      simp only [List.getLast_singleton]
      rw [getDirectory_of_root c0 role id hroot]
      simp only [joinedAlong]
      cases (c0.localDirectories role).lookup id <;> rfl
    | append_singleton ds c ih =>
      have hsplit : List.Chain' (fun parent child => child.m_parent = some parent)
          ((c0 :: ds) ++ [c]) := hchain
      obtain ⟨hds, -, hlink⟩ := List.chain'_append.1 hsplit
      have hlast : c.m_parent = some ((c0 :: ds).getLast (List.cons_ne_nil _ _)) :=
        hlink _ (List.getLast?_eq_getLast _ _) c rfl
      have hc : (c0 :: (ds ++ [c])).getLast (List.cons_ne_nil _ _) = c := by simp
      rw [hc, joinedAlong_append]
      exact getDirectory_child_step c _ role id hlast _ (ih hds)
  refine ⟨?_, ?_⟩
  · rw [key]
    simp only [joinedAlong]
    cases (c0.localDirectories role).lookup id <;> rfl
  · rw [key]
    simp only [joinedAlong]
    cases (c0.localDirectories role).lookup id <;> simp

/-- The witness of C19: a root mapped to "/base", a child without a mapping, a
grandchild mapped to "b" and a great-grandchild mapped to "c" resolve, at the
last one, to "/base/b/c"; under a root without a mapping the resolution fails
although the descendants have mappings. -/
theorem getDirectory_closed_form_witness :
    (TestContext.mk (some ⟨some ⟨some ⟨none, [("x", ⟨"/base"⟩)], [], [], none⟩, [], [], [], none⟩,
        [("x", ⟨"b"⟩)], [], [], none⟩) [("x", ⟨"c"⟩)] [] [] none).getDirectory Role.data "x"
      = .ok ⟨"/base/b/c"⟩
    ∧ (TestContext.mk (some ⟨none, [], [], [], none⟩) [("x", ⟨"c"⟩)] [] [] none).getDirectory
        Role.data "x" = .error ⟨"getDataDirectory: no directory found with id x"⟩ :=
  ⟨(getDirectory_closed_form Role.data "x" ⟨none, [("x", ⟨"/base"⟩)], [], [], none⟩
      [⟨some ⟨none, [("x", ⟨"/base"⟩)], [], [], none⟩, [], [], [], none⟩,
       ⟨some ⟨some ⟨none, [("x", ⟨"/base"⟩)], [], [], none⟩, [], [], [], none⟩,
        [("x", ⟨"b"⟩)], [], [], none⟩,
       ⟨some ⟨some ⟨some ⟨none, [("x", ⟨"/base"⟩)], [], [], none⟩, [], [], [], none⟩,
        [("x", ⟨"b"⟩)], [], [], none⟩, [("x", ⟨"c"⟩)], [], [], none⟩]
      rfl (by simp)).1.trans rfl,
   (getDirectory_closed_form Role.data "x" ⟨none, [], [], [], none⟩
      [⟨some ⟨none, [], [], [], none⟩, [("x", ⟨"c"⟩)], [], [], none⟩]
      rfl (by simp)).1.trans rfl⟩

/-! ## Reference paths on the other platform families -/

theorem append_length_bounds (d x : Path) :
    d.m_pathname.data.length + x.m_pathname.data.length ≤ (d / x).m_pathname.data.length
    ∧ (d / x).m_pathname.data.length
        ≤ d.m_pathname.data.length + x.m_pathname.data.length + 1 := by
  show _ ≤ (Path.append d x).m_pathname.data.length ∧ (Path.append d x).m_pathname.data.length ≤ _
  unfold Path.append
  cases hx : x.m_pathname.data with
  | nil => simp
  | cons c cs =>
    simp only
    have hxl : x.m_pathname.data.length = (c :: cs).length := by rw [hx]
    cases hsep : is_separator c with
    | true =>
      simp only [if_true, String.data_append, List.length_append]
      omega
    | false =>
      simp only [Bool.false_eq_true, if_false, String.data_append, List.length_append]
      unfold Path.m_append_separator_if_needed
      cases d.m_pathname.data.getLast? with
      | none => simp only; omega
      | some last =>
        simp only
        cases hl : is_separator last with
        | true => simp only [if_true]; omega
        | false =>
          simp only [Bool.false_eq_true, if_false, String.data_append, List.length_append]
          have : (['/'] : List Char).length = 1 := rfl
          omega

theorem platform_specific_path_length (q : String) (path : Path) (hq : isFamilyName q = true) :
    (platform_specific_path q path).m_pathname.data.length
      = path.m_pathname.data.length + 1 + q.data.length := by
  obtain ⟨dir, name, hs, hdir, hname⟩ := split_lastElement path.m_pathname.data
  have hpath : path = ⟨⟨dir ++ name⟩⟩ := by
    cases path with
    | mk m_pathname => exact congrArg Path.mk (String.ext hs)
  have hq' : isFamilyName ⟨q.data⟩ = true := hq
  have hqq : platform_specific_path q path = platform_specific_path ⟨q.data⟩ path := rfl
  rcases split_last_dot name hname with hplain | ⟨stem, ext, hne, hstem, hext⟩
  · rw [hqq, hpath, platform_specific_path_plain q.data dir name hq' hdir hname (Or.inl hplain)]
    simp only [List.length_append, List.length_cons]
    omega
  · by_cases hspecial : name = ['.'] ∨ name = ['.', '.']
    · rw [hqq, hpath, platform_specific_path_plain q.data dir name hq' hdir hname
        (Or.inr hspecial)]
      simp only [List.length_append, List.length_cons]
      omega
    · rw [hqq, hpath, hne, platform_specific_path_dotted q.data dir stem ext hq' hdir hstem hext
        (fun h => hspecial (Or.inl (hne.trans h)))
        (fun h => hspecial (Or.inr (hne.trans h)))]
      simp only [List.length_append, List.length_cons]
      omega

theorem unix_candidate_ne_base (d path : Path) :
    d / platform_specific_path "unix" path ≠ d / path := by
  intro h
  have h1 := (append_length_bounds d (platform_specific_path "unix" path)).1
  have h2 := (append_length_bounds d path).2
  have h3 := platform_specific_path_length "unix" path rfl
  have h4 : ("unix" : String).data.length = 4 := rfl
  rw [h] at h1
  omega

/-- C16: with resolution requested, on a platform family other than linux
and cygwin, `getReferencePath` fails when the default reference directory
does not resolve, and otherwise returns, under that directory, the
family-qualified candidate if the probe finds it and the base path as given
if not. The probe is asked about no other path, so a unix-qualified file that
exists changes nothing, and the path returned is not the unix-qualified
candidate, unless that is the family-qualified candidate itself. -/
theorem getReferencePath_other_family (c : TestContext) (os_family : String)
    (Exists : Path → Bool) (path : Path)
    (hfamily : os_family ≠ "linux" ∧ os_family ≠ "cygwin") :
    c.getReferencePath os_family Exists path PathResolution.platform_specific =
      (c.getReferenceDirectory "(default)").map (fun directory =>
        if Exists (directory / platform_specific_path os_family path) then
          directory / platform_specific_path os_family path
        else directory / path)
    ∧ (∀ Exists2 : Path → Bool,
        (∀ directory, c.getReferenceDirectory "(default)" = .ok directory →
          Exists2 (directory / platform_specific_path os_family path)
            = Exists (directory / platform_specific_path os_family path)) →
        c.getReferencePath os_family Exists2 path PathResolution.platform_specific
          = c.getReferencePath os_family Exists path PathResolution.platform_specific)
    ∧ (∀ directory returned, c.getReferenceDirectory "(default)" = .ok directory →
        c.getReferencePath os_family Exists path PathResolution.platform_specific = .ok returned →
        directory / platform_specific_path "unix" path
          ≠ directory / platform_specific_path os_family path →
        returned ≠ directory / platform_specific_path "unix" path) := by
  have hne : ¬ (os_family = "linux" ∨ os_family = "cygwin") := by
    rintro (h | h)
    · exact hfamily.1 h
    · exact hfamily.2 h
  have key : ∀ E : Path → Bool,
      c.getReferencePath os_family E path PathResolution.platform_specific =
        (c.getReferenceDirectory "(default)").map (fun directory =>
          if E (directory / platform_specific_path os_family path) then
            directory / platform_specific_path os_family path
          else directory / path) := by
    intro E
    rw [getReferencePath_resolved]
    congr 1
    funext directory
    rw [if_neg hne]
  refine ⟨key Exists, ?_, ?_⟩
  · intro Exists2 hsame
    rw [key, key]
    cases hd : c.getReferenceDirectory "(default)" with
    | error e => rfl
    | ok directory =>
      simp only [Except.map]
      rw [hsame directory hd]
  · intro directory returned hd hret hdiff
    rw [key, hd] at hret
    simp only [Except.map] at hret
    by_cases hex : Exists (directory / platform_specific_path os_family path) = true
    · rw [if_pos hex] at hret
      cases hret
      exact fun h => hdiff h.symm
    · rw [if_neg hex] at hret
      cases hret
      exact fun h => unix_candidate_ne_base directory path h.symm

/-- The witness of C16: on windows, under the reference directory "ref", with
"ref/foo.unix.expected" on the filesystem and "ref/foo.windows.expected" not,
"foo.expected" resolves to "ref/foo.expected". -/
theorem getReferencePath_other_family_witness :
    (TestContext.mk none [] [("(default)", ⟨"ref"⟩)] [] none).getReferencePath "windows"
        (fun p => p == ⟨"ref/foo.unix.expected"⟩) ⟨"foo.expected"⟩
        PathResolution.platform_specific
      = .ok ⟨"ref/foo.expected"⟩ :=
  (getReferencePath_other_family ⟨none, [], [("(default)", ⟨"ref"⟩)], [], none⟩ "windows"
    (fun p => p == ⟨"ref/foo.unix.expected"⟩) ⟨"foo.expected"⟩
    ⟨by decide, by decide⟩).1.trans rfl

/-! ## The error-reporting overload of getOutputDirectory -/

theorem getOutputDirectoryWithError_of_ok (c : TestContext) (id : String) :
    ∀ p, c.getOutputDirectory id = .ok p →
      c.getOutputDirectoryWithError id none = .ok (p, none) := by
  induction c using TestContext.chain.induct with
  | case1 m_parent d r o a ih =>
    intro p hp
    rw [TestContext.getOutputDirectory] at hp
    rw [TestContext.getOutputDirectoryWithError]
    cases hl : o.lookup id with
    | none =>
      rw [hl] at hp
      exact ih p hp
    | some second =>
      rw [hl] at hp
      simp only at hp ⊢
      cases hparent : m_parent.getOutputDirectory id with
      | error e => rw [hparent] at hp; cases hp
      | ok q =>
        rw [hparent] at hp
        cases hp
        rfl
  | case2 d r o a =>
    intro p hp
    rw [TestContext.getOutputDirectory] at hp
    rw [TestContext.getOutputDirectoryWithError]
    cases hl : o.lookup id with
    | none => rw [hl] at hp; cases hp
    | some second =>
      rw [hl] at hp
      cases hp
      rfl

theorem getOutputDirectoryWithError_of_error (c : TestContext) (id : String) :
    ∀ e, c.getOutputDirectory id = .error e →
      c.getOutputDirectoryWithError id none =
        if c.chain.all (fun n => (n.m_outputDirectories.lookup id).isNone) then
          .ok (⟨""⟩, some TestFrameworkErrorCategory.generic_error)
        else .error e := by
  induction c using TestContext.chain.induct with
  | case1 m_parent d r o a ih =>
    intro e he
    rw [TestContext.getOutputDirectory] at he
    rw [TestContext.getOutputDirectoryWithError, TestContext.chain]
    cases hl : o.lookup id with
    | none =>
      rw [hl] at he
      simp only [List.all_cons, hl, Option.isNone_none, Bool.true_and]
      exact ih e he
    | some second =>
      rw [hl] at he
      simp only [List.all_cons, hl, Option.isNone_some, Bool.false_and, Bool.false_eq_true,
        if_false]
      cases hparent : m_parent.getOutputDirectory id with
      | error e2 =>
        rw [hparent] at he
        cases he
        rfl
      | ok q => rw [hparent] at he; cases he
  | case2 d r o a =>
    intro e he
    rw [TestContext.getOutputDirectory] at he
    rw [TestContext.getOutputDirectoryWithError, TestContext.chain]
    cases hl : o.lookup id with
    | none =>
      simp only [List.all_cons, hl, Option.isNone_none, List.all_nil, Bool.and_self, if_true]
      rfl
    | some second => rw [hl] at he; cases he

/-- C20, at the input where the code departs from it: a root without an
output mapping for "x" and a child that maps "x" to "sub". The throwing
overload fails on the child, and the overload that takes `error` throws the
same exception instead of reporting through `error`; on the root alone the
same overload does report through `error` and throws nothing. -/
theorem getOutputDirectoryWithError_throws :
    (TestContext.mk (some ⟨none, [], [], [], none⟩) [] [] [("x", ⟨"sub"⟩)] none).getOutputDirectory
        "x" = .error ⟨"getOutputDirectory: no directory found with id x"⟩
    ∧ (TestContext.mk (some ⟨none, [], [], [], none⟩) [] []
        [("x", ⟨"sub"⟩)] none).getOutputDirectoryWithError "x" none
      = .error ⟨"getOutputDirectory: no directory found with id x"⟩
    ∧ (TestContext.mk none [] [] [] none).getOutputDirectoryWithError "x" none
      = .ok (⟨""⟩, some TestFrameworkErrorCategory.generic_error) :=
  ⟨rfl, rfl, rfl⟩

/-! ## The top-level sequence -/

/-- C12: for every event type and every observer, `notify` on the top-level
sequence delivers nothing to the observer and leaves the sequence as it was;
so after any series of such calls the observer has received what it had
received before, nothing of it about the top-level sequence. -/
theorem TopTestSequence_notify_silent (s : TopTestSequence) (type : EEventType)
    (observer : TestObserver) :
    s.notify type observer = (s, observer)
    ∧ (s.notify type observer).2.received = observer.received
    ∧ ∀ events : List EEventType,
        events.foldl (fun state event => state.1.notify event state.2) (s, observer)
          = (s, observer) := by
  refine ⟨rfl, rfl, ?_⟩
  intro events
  induction events with
  | nil => rfl
  | cons event rest ih => exact ih

/-- An instance of C12: an observer that has received nothing has still
received nothing after the start and the end of the top-level sequence. -/
theorem TopTestSequence_notify_silent_witness :
    ([EEventType.eTestStart, EEventType.eTestEnd].foldl
        (fun state event => state.1.notify event state.2)
        (TopTestSequence.create "suite", (⟨[]⟩ : TestObserver))).2.received = [] :=
  congrArg (fun state => state.2.received)
    ((TopTestSequence_notify_silent (TopTestSequence.create "suite") EEventType.eTestStart
      ⟨[]⟩).2.2 [EEventType.eTestStart, EEventType.eTestEnd])

/-! ## The timestamp of the output directory -/

theorem toDigitsCore_step (fuel n : Nat) (ds : List Char) :
    Nat.toDigitsCore 10 (fuel + 1) n ds =
      if n / 10 = 0 then Nat.digitChar (n % 10) :: ds
      else Nat.toDigitsCore 10 fuel (n / 10) (Nat.digitChar (n % 10) :: ds) := by
  simp [Nat.toDigitsCore]

theorem toString_one_digit (n : Nat) (h : n < 10) :
    (toString n).data = [Nat.digitChar n] := by
  show (Nat.toDigits 10 n).asString.data = _
  unfold Nat.toDigits
  rw [toDigitsCore_step, if_pos (by omega), Nat.mod_eq_of_lt h]
  rfl

theorem toString_two_digits (n : Nat) (h1 : 10 ≤ n) (h2 : n < 100) :
    (toString n).data = [Nat.digitChar (n / 10), Nat.digitChar (n % 10)] := by
  show (Nat.toDigits 10 n).asString.data = _
  unfold Nat.toDigits
  obtain ⟨k, rfl⟩ : ∃ k, n = k + 1 := ⟨n - 1, by omega⟩
  rw [toDigitsCore_step, if_neg (by omega), toDigitsCore_step, if_pos (by omega),
    Nat.mod_eq_of_lt (show (k + 1) / 10 < 10 by omega)]
  rfl

theorem toString_four_digits (n : Nat) (h1 : 1000 ≤ n) (h2 : n < 10000) :
    (toString n).data = [Nat.digitChar (n / 1000), Nat.digitChar (n / 100 % 10),
      Nat.digitChar (n / 10 % 10), Nat.digitChar (n % 10)] := by
  show (Nat.toDigits 10 n).asString.data = _
  unfold Nat.toDigits
  obtain ⟨k, rfl⟩ : ∃ k, n = k + 3 := ⟨n - 3, by omega⟩
  rw [toDigitsCore_step, if_neg (by omega), toDigitsCore_step, if_neg (by omega),
    toDigitsCore_step, if_neg (by omega), toDigitsCore_step, if_pos (by omega)]
  have e1 : (k + 3) / 10 / 10 / 10 % 10 = (k + 3) / 1000 := by omega
  have e2 : (k + 3) / 10 / 10 % 10 = (k + 3) / 100 % 10 := by omega
  rw [e1, e2]
  rfl

theorem setw2_data (n : Nat) (h : n < 100) :
    (setw2 n).data = [Nat.digitChar (n / 10), Nat.digitChar (n % 10)] := by
  unfold setw2
  by_cases h10 : n < 10
  · rw [toString_one_digit n h10]
    have e1 : n / 10 = 0 := by omega
    have e2 : n % 10 = n := by omega
    rw [e1, e2]
    rfl
  · rw [toString_two_digits n (by omega) h]
    rfl
theorem currentSecondStr_data (t : ptime) (hrange : t.inRange = true) :
    (currentSecondStr t).data =
      [Nat.digitChar (t.year / 1000), Nat.digitChar (t.year / 100 % 10),
        Nat.digitChar (t.year / 10 % 10), Nat.digitChar (t.year % 10),
        Nat.digitChar (t.month / 10), Nat.digitChar (t.month % 10),
        Nat.digitChar (t.day / 10), Nat.digitChar (t.day % 10), 'T',
        Nat.digitChar (t.hours / 10), Nat.digitChar (t.hours % 10),
        Nat.digitChar (t.minutes / 10), Nat.digitChar (t.minutes % 10),
        Nat.digitChar (t.seconds / 10), Nat.digitChar (t.seconds % 10), 'Z'] := by
  simp only [ptime.inRange, Bool.and_eq_true, decide_eq_true_eq] at hrange
  obtain ⟨⟨⟨⟨⟨⟨⟨⟨hy1, hy2⟩, hm1⟩, hm2⟩, hd1⟩, hd2⟩, hh⟩, hmi⟩, hs⟩ := hrange
  unfold currentSecondStr
  simp only [String.data_append]
  rw [toString_four_digits t.year (by omega) (by omega), setw2_data t.month (by omega),
    setw2_data t.day (by omega), setw2_data t.hours (by omega),
    setw2_data t.minutes (by omega), setw2_data t.seconds (by omega)]
  rfl

theorem prepareOutputDirectory_eq (h : TestHarness) (expand : String → String) (t : ptime)
    (previous : Path)
    (hflag : h.m_timestampOutputDirectory = true)
    (hprevious : h.m_context.getOutputDirectory "(default)" = .ok previous) :
    h.prepareOutputDirectory expand t =
      .ok { h with
        m_context := (h.m_context.setOutputDirectoryDefault expand
          ⟨(previous / (⟨currentSecondStr t⟩ : Path)).m_pathname⟩) } := by
  unfold TestHarness.prepareOutputDirectory TestContext.getOutputDirectoryDefault
  rw [if_pos hflag, hprevious]
  rfl

theorem getOutputDirectory_setOutputDirectoryDefault (c : TestContext)
    (expand : String → String) (path : Path) (hroot : c.m_parent = none) :
    (c.setOutputDirectoryDefault expand path).getOutputDirectory "(default)"
      = .ok ⟨expand path.m_pathname⟩ :=
  (setDirectory_getDirectory_root_aux c expand Role.output "(default)" path hroot)

/-- C15, as the code has it: for a time in Boost's ranges, so with a year of
four digits, the suffix is the 16 characters YYYYMMDDTHHMMSSZ, each field in
decimal digits and zero-padded; on a harness whose context has no parent and
resolves the default output directory to `previous`,
`prepareOutputDirectory` succeeds and the default output directory becomes
what the variable expander makes of `previous` joined with the suffix, which
is that join itself when the expander leaves it unchanged. -/
theorem prepareOutputDirectory_timestamp (h : TestHarness) (expand : String → String)
    (t : ptime) (previous : Path)
    (hrange : t.inRange = true)
    (hflag : h.m_timestampOutputDirectory = true)
    (hroot : h.m_context.m_parent = none)
    (hprevious : h.m_context.getOutputDirectory "(default)" = .ok previous) :
    (currentSecondStr t).data =
      [Nat.digitChar (t.year / 1000), Nat.digitChar (t.year / 100 % 10),
        Nat.digitChar (t.year / 10 % 10), Nat.digitChar (t.year % 10),
        Nat.digitChar (t.month / 10), Nat.digitChar (t.month % 10),
        Nat.digitChar (t.day / 10), Nat.digitChar (t.day % 10), 'T',
        Nat.digitChar (t.hours / 10), Nat.digitChar (t.hours % 10),
        Nat.digitChar (t.minutes / 10), Nat.digitChar (t.minutes % 10),
        Nat.digitChar (t.seconds / 10), Nat.digitChar (t.seconds % 10), 'Z']
    ∧ (currentSecondStr t).length = 16
    ∧ ∃ prepared, h.prepareOutputDirectory expand t = .ok prepared
        ∧ prepared.m_context.getOutputDirectory "(default)"
            = .ok ⟨expand (previous / (⟨currentSecondStr t⟩ : Path)).m_pathname⟩
        ∧ (expand (previous / (⟨currentSecondStr t⟩ : Path)).m_pathname
              = (previous / (⟨currentSecondStr t⟩ : Path)).m_pathname
            → prepared.m_context.getOutputDirectory "(default)"
                = .ok (previous / (⟨currentSecondStr t⟩ : Path))) := by
  have hdata := currentSecondStr_data t hrange
  refine ⟨hdata, ?_, ?_⟩
  · show (currentSecondStr t).data.length = 16
    rw [hdata]
    rfl
  · refine ⟨_, prepareOutputDirectory_eq h expand t previous hflag hprevious, ?_, ?_⟩
    · exact getOutputDirectory_setOutputDirectoryDefault h.m_context expand _ hroot
    · intro hfixed
      have := getOutputDirectory_setOutputDirectoryDefault h.m_context expand
        ⟨(previous / (⟨currentSecondStr t⟩ : Path)).m_pathname⟩ hroot
      rw [hfixed] at this
      exact this

/-- The witness of the amended C15: at 2024-03-05 07:08:09 UTC the suffix is
"20240305T070809Z", and with an expander that changes nothing the default
output directory "out" becomes "out/20240305T070809Z". -/
theorem prepareOutputDirectory_timestamp_witness :
    currentSecondStr marchFifth = "20240305T070809Z"
    ∧ ∃ prepared,
        TestHarness.prepareOutputDirectory
          ⟨none, ⟨none, [], [], [("(default)", ⟨"out"⟩)], none⟩, Test.sequence "suite"
            TestResult.unknown [], true⟩ (fun s => s) marchFifth = .ok prepared
        ∧ prepared.m_context.getOutputDirectory "(default)" = .ok ⟨"out/20240305T070809Z"⟩ := by
  obtain ⟨-, -, prepared, h1, h2, -⟩ := prepareOutputDirectory_timestamp
    ⟨none, ⟨none, [], [], [("(default)", ⟨"out"⟩)], none⟩, Test.sequence "suite"
      TestResult.unknown [], true⟩ (fun s => s) marchFifth ⟨"out"⟩ rfl rfl rfl rfl
  exact ⟨rfl, prepared, h1, h2.trans rfl⟩

/-- The counterexample to C15: in an environment where A is "$B" and B is "x",
a harness constructed with context.output set to "$A" has, after seeding, the
default output directory "$B"; the timestamping of 2024-03-05 07:08:09 UTC
makes it "x/20240305T070809Z", which is not "$B" joined with the suffix. -/
theorem prepareOutputDirectory_expands_again :
    (TestHarness.seeded expandAB "suite"
        (TestHarness.Configuration.create outputOnlyConfiguration)).m_context.getOutputDirectory
        "(default)" = .ok ⟨"$B"⟩
    ∧ ((TestHarness.seeded expandAB "suite"
        (TestHarness.Configuration.create outputOnlyConfiguration)).prepareOutputDirectory
          expandAB marchFifth).bind (fun prepared =>
            prepared.m_context.getOutputDirectory "(default)")
        = .ok ⟨"x/20240305T070809Z"⟩
    ∧ (⟨"x/20240305T070809Z"⟩ : Path) ≠ (⟨"$B"⟩ : Path) / (⟨currentSecondStr marchFifth⟩ : Path) := by
  refine ⟨rfl, rfl, ?_⟩
  decide

/-! ## Construction of the harness from a configuration -/

theorem stringOption_eq_some (configuration : IshikoConfiguration) (name value : String) :
    stringOption configuration name = some value
      ↔ configuration.valueOrNull name = some (ConfigurationValue.string value) := by
  unfold stringOption
  cases configuration.valueOrNull name with
  | none => simp
  | some v => cases v <;> simp

theorem seeded_context (expand : String → String) (title : String)
    (configuration : TestHarness.Configuration) :
    (TestHarness.seeded expand title configuration).m_context =
      { m_parent := none
        m_dataDirectories :=
          [("(default)", match configuration.m_contextData with
            | some value => ⟨expand value⟩
            | none => ⟨""⟩)]
        m_referenceDirectories :=
          [("(default)", match configuration.m_contextReference with
            | some value => ⟨expand value⟩
            | none => ⟨""⟩)]
        m_outputDirectories :=
          ("(default)", match configuration.m_contextOutput with
            | some value => ⟨expand value⟩
            | none => ⟨""⟩)
          :: (match configuration.m_persistentStorage with
            | some value => [("persistent-storage", ⟨expand value⟩)]
            | none => [])
        m_application_path := configuration.m_application_path.map Path.mk } := by
  obtain ⟨data, output, reference, application, persistent, report⟩ := configuration
  cases data <;> cases output <;> cases reference <;> cases application <;> cases persistent <;>
    rfl

theorem timestamped_eq (h : TestHarness) (expand : String → String) (t : ptime)
    (directory : Path)
    (hflag : h.m_timestampOutputDirectory = true)
    (hdirectory : h.m_context.getOutputDirectory "(default)" = .ok directory) :
    h.timestamped expand t =
      if directory.empty then .ok h
      else .ok { h with
        m_context := (h.m_context.setOutputDirectoryDefault expand
          ⟨(directory / (⟨currentSecondStr t⟩ : Path)).m_pathname⟩) } := by
  unfold TestHarness.timestamped TestContext.getOutputDirectoryDefault
  rw [hdirectory]
  simp only [bind, Except.bind]
  cases hempty : directory.empty with
  | true => rfl
  | false =>
    simp only [Bool.not_false, if_true, Bool.false_eq_true, if_false]
    exact prepareOutputDirectory_eq h expand t directory hflag hdirectory

theorem seeded_output_default (expand : String → String) (title : String)
    (configuration : TestHarness.Configuration) :
    (TestHarness.seeded expand title configuration).m_context.getOutputDirectory "(default)"
      = .ok (match configuration.m_contextOutput with
        | some value => ⟨expand value⟩
        | none => ⟨""⟩) := by
  have h := getDirectory_of_root (TestHarness.seeded expand title configuration).m_context
    Role.output "(default)" (by rw [seeded_context])
  rw [seeded_context] at h ⊢
  exact h

theorem createFromConfiguration_eq (expand : String → String) (t : ptime) (title : String)
    (configuration : TestHarness.Configuration) (directory : Path)
    (hdirectory : (TestHarness.seeded expand title configuration).m_context.getOutputDirectory
      "(default)" = .ok directory) :
    TestHarness.createFromConfiguration expand t title configuration =
      if directory.empty then .ok (TestHarness.seeded expand title configuration)
      else .ok { TestHarness.seeded expand title configuration with
        m_context := ((TestHarness.seeded expand title configuration).m_context.setOutputDirectoryDefault
          expand ⟨(directory / (⟨currentSecondStr t⟩ : Path)).m_pathname⟩) } :=
  timestamped_eq _ expand t directory rfl hdirectory

/-- C17: the constructor from a configuration resolves the default output
directory of the seeded context and, exactly when that directory is not
empty, sets the default output sub-role once, to what the expander makes of
that directory joined with the timestamp suffix; when it is empty the seeded
harness is the result. Either way the data and reference maps, the parent and
the application path are those of the seeded context, and so is the output
mapping of every id other than "(default)", "persistent-storage" among them.
The harness `runTests` works with after the run has the context it had
before. -/
theorem createFromConfiguration_timestamps_default_output (expand : String → String)
    (t : ptime) (title : String) (configuration : TestHarness.Configuration) :
    ∃ directory constructed,
      (TestHarness.seeded expand title configuration).m_context.getOutputDirectory "(default)"
        = .ok directory
      ∧ TestHarness.createFromConfiguration expand t title configuration = .ok constructed
      ∧ (directory.empty = true
          → constructed = TestHarness.seeded expand title configuration)
      ∧ (directory.empty = false
          → constructed.m_context.m_outputDirectories.lookup "(default)"
              = some ⟨expand (directory / (⟨currentSecondStr t⟩ : Path)).m_pathname⟩)
      ∧ constructed.m_context.m_dataDirectories
          = (TestHarness.seeded expand title configuration).m_context.m_dataDirectories
      ∧ constructed.m_context.m_referenceDirectories
          = (TestHarness.seeded expand title configuration).m_context.m_referenceDirectories
      ∧ constructed.m_context.m_application_path
          = (TestHarness.seeded expand title configuration).m_context.m_application_path
      ∧ constructed.m_context.m_parent
          = (TestHarness.seeded expand title configuration).m_context.m_parent
      ∧ (∀ id, id ≠ "(default)" →
          constructed.m_context.m_outputDirectories.lookup id
            = (TestHarness.seeded expand title configuration).m_context.m_outputDirectories.lookup
                id)
      ∧ constructed.m_context.m_outputDirectories.lookup "persistent-storage"
          = (TestHarness.seeded expand title configuration).m_context.m_outputDirectories.lookup
              "persistent-storage"
      ∧ ∀ topSequence, (constructed.finished topSequence).m_context = constructed.m_context := by
  have hdirectory := seeded_output_default expand title configuration
  have hcreate := createFromConfiguration_eq expand t title configuration _ hdirectory
  cases hempty : (match configuration.m_contextOutput with
      | some value => (⟨expand value⟩ : Path)
      | none => ⟨""⟩).empty with
  | true =>
    rw [hempty] at hcreate
    refine ⟨_, _, hdirectory, hcreate, fun _ => rfl, ?_, rfl, rfl, rfl, rfl, fun _ _ => rfl, rfl,
      fun _ => rfl⟩
    intro hfalse
    rw [hempty] at hfalse
    cases hfalse
  | false =>
    rw [hempty] at hcreate
    refine ⟨_, _, hdirectory, hcreate, ?_, ?_, rfl, rfl, rfl, rfl, ?_, ?_, fun _ => rfl⟩
    · intro htrue
      rw [hempty] at htrue
      cases htrue
    · intro _
      exact lookup_mapAssign_self _ _ _
    · intro id hid
      exact lookup_mapAssign_ne _ _ _ _ hid
    · exact lookup_mapAssign_ne _ _ _ _ (by decide)

/-- An instance of C17: with an expander that changes nothing and the options
context.output "out" and persistent-storage "store", the constructor at
2024-03-05 07:08:09 UTC leaves "store" as it is and makes the default output
directory "out/20240305T070809Z"; without context.output nothing is
timestamped. -/
theorem createFromConfiguration_timestamps_default_output_witness :
    (TestHarness.createFromConfiguration (fun s => s) marchFifth "suite"
        ⟨none, some "out", none, none, some "store", none⟩).map
        (fun constructed => constructed.m_context.m_outputDirectories)
      = .ok [("(default)", ⟨"out/20240305T070809Z"⟩), ("persistent-storage", ⟨"store"⟩)]
    ∧ (TestHarness.createFromConfiguration (fun s => s) marchFifth "suite"
        ⟨none, none, none, none, some "store", none⟩).map
        (fun constructed => constructed.m_context.m_outputDirectories)
      = .ok [("(default)", ⟨""⟩), ("persistent-storage", ⟨"store"⟩)] := by
  obtain ⟨directory, constructed, -, hcreate, -⟩ :=
    createFromConfiguration_timestamps_default_output (fun s => s) marchFifth "suite"
      ⟨none, some "out", none, none, some "store", none⟩
  exact ⟨rfl, rfl⟩

/-- C18: `stringOption` gives the string of an option exactly when the source
has the option with a string value. The context seeded by the constructor has
no parent and maps: the default data, output and reference directories to
what the expander makes of context.data, context.output and
context.reference; the application path to context.application-path; the
output sub-role "persistent-storage" to what the expander makes of
persistent-storage. Where the option is absent or not a string the setting is
that of the default context, and no other id is mapped. The constructor
throws nothing, and apart from the default output directory its context has
these settings. -/
theorem seeded_from_options (expand : String → String) (t : ptime) (title : String)
    (source : IshikoConfiguration) :
    (∀ name value, stringOption source name = some value
      ↔ source.valueOrNull name = some (ConfigurationValue.string value))
    ∧ (TestHarness.seeded expand title
        (TestHarness.Configuration.create source)).m_context.m_parent = none
    ∧ (TestHarness.seeded expand title
        (TestHarness.Configuration.create source)).m_context.m_dataDirectories.lookup "(default)"
      = (match stringOption source "context.data" with
        | some value => some ⟨expand value⟩
        | none => TestContext.DefaultTestContext.m_dataDirectories.lookup "(default)")
    ∧ (TestHarness.seeded expand title
        (TestHarness.Configuration.create source)).m_context.m_outputDirectories.lookup "(default)"
      = (match stringOption source "context.output" with
        | some value => some ⟨expand value⟩
        | none => TestContext.DefaultTestContext.m_outputDirectories.lookup "(default)")
    ∧ (TestHarness.seeded expand title
        (TestHarness.Configuration.create source)).m_context.m_referenceDirectories.lookup
          "(default)"
      = (match stringOption source "context.reference" with
        | some value => some ⟨expand value⟩
        | none => TestContext.DefaultTestContext.m_referenceDirectories.lookup "(default)")
    ∧ (TestHarness.seeded expand title
        (TestHarness.Configuration.create source)).m_context.m_application_path
      = (match stringOption source "context.application-path" with
        | some value => some ⟨value⟩
        | none => TestContext.DefaultTestContext.m_application_path)
    ∧ (TestHarness.seeded expand title
        (TestHarness.Configuration.create source)).m_context.m_outputDirectories.lookup
          "persistent-storage"
      = (match stringOption source "persistent-storage" with
        | some value => some ⟨expand value⟩
        | none => TestContext.DefaultTestContext.m_outputDirectories.lookup "persistent-storage")
    ∧ (∀ id, id ≠ "(default)" →
        (TestHarness.seeded expand title
          (TestHarness.Configuration.create source)).m_context.m_dataDirectories.lookup id = none
        ∧ (TestHarness.seeded expand title
          (TestHarness.Configuration.create source)).m_context.m_referenceDirectories.lookup id
            = none
        ∧ (id ≠ "persistent-storage" →
          (TestHarness.seeded expand title
            (TestHarness.Configuration.create source)).m_context.m_outputDirectories.lookup id
              = none))
    ∧ ∃ constructed,
        TestHarness.createFromConfiguration expand t title
          (TestHarness.Configuration.create source) = .ok constructed
        ∧ constructed.m_context.m_dataDirectories
          = (TestHarness.seeded expand title
              (TestHarness.Configuration.create source)).m_context.m_dataDirectories
        ∧ constructed.m_context.m_referenceDirectories
          = (TestHarness.seeded expand title
              (TestHarness.Configuration.create source)).m_context.m_referenceDirectories
        ∧ constructed.m_context.m_application_path
          = (TestHarness.seeded expand title
              (TestHarness.Configuration.create source)).m_context.m_application_path
        ∧ constructed.m_context.m_outputDirectories.lookup "persistent-storage"
          = (TestHarness.seeded expand title
              (TestHarness.Configuration.create source)).m_context.m_outputDirectories.lookup
                "persistent-storage" := by
  have hctx := seeded_context expand title (TestHarness.Configuration.create source)
  have hne : ∀ id : String, id ≠ "(default)" → (id == "(default)") = false := by
    intro id hid
    simpa using hid
  refine ⟨stringOption_eq_some source, ?_, ?_, ?_, ?_, ?_, ?_, ?_, ?_⟩
  · rw [hctx]
  · rw [hctx]
    simp only [TestHarness.Configuration.create]
    cases stringOption source "context.data" <;> rfl
  · rw [hctx]
    simp only [TestHarness.Configuration.create]
    cases stringOption source "context.output" <;> rfl
  · rw [hctx]
    simp only [TestHarness.Configuration.create]
    cases stringOption source "context.reference" <;> rfl
  · rw [hctx]
    simp only [TestHarness.Configuration.create]
    cases stringOption source "context.application-path" <;> rfl
  · rw [hctx]
    simp only [TestHarness.Configuration.create]
    cases stringOption source "persistent-storage" <;> rfl
  · intro id hid
    rw [hctx]
    refine ⟨?_, ?_, ?_⟩
    · simp only [List.lookup, hne id hid]
    · simp only [List.lookup, hne id hid]
    · intro hps
      have hps2 : (id == "persistent-storage") = false := by simpa using hps
      simp only [TestHarness.Configuration.create, List.lookup, hne id hid]
      cases stringOption source "persistent-storage" <;> simp [List.lookup, hps2]
  · have hdirectory := seeded_output_default expand title
      (TestHarness.Configuration.create source)
    have hcreate := createFromConfiguration_eq expand t title
      (TestHarness.Configuration.create source) _ hdirectory
    split at hcreate
    · exact ⟨_, hcreate, rfl, rfl, rfl, rfl⟩
    · exact ⟨_, hcreate, rfl, rfl, rfl, lookup_mapAssign_ne _ _ _ _ (by decide)⟩

/-- An instance of C18: from a source with context.data "in", context.output
of a type other than string and no other option, the seeded context maps the
default data directory to "in" and is otherwise the default context. -/
theorem seeded_from_options_witness :
    (TestHarness.seeded (fun s => s) "suite"
        (TestHarness.Configuration.create
          ⟨fun name =>
            if name = "context.data" then some (ConfigurationValue.string "in")
            else if name = "context.output" then some ConfigurationValue.other
            else none⟩)).m_context.m_dataDirectories.lookup "(default)" = some ⟨"in"⟩
    ∧ (TestHarness.seeded (fun s => s) "suite"
        (TestHarness.Configuration.create
          ⟨fun name =>
            if name = "context.data" then some (ConfigurationValue.string "in")
            else if name = "context.output" then some ConfigurationValue.other
            else none⟩)).m_context.m_outputDirectories.lookup "(default)" = some ⟨""⟩ :=
  ⟨(seeded_from_options (fun s => s) marchFifth "suite" _).2.2.1.trans rfl,
   (seeded_from_options (fun s => s) marchFifth "suite" _).2.2.2.1.trans rfl⟩

/-! ## The pass rate in double precision -/

theorem roundHalfEven_near (n d : Nat) (hd : 0 < d) :
    2 * (roundHalfEven n d * d) ≤ 2 * n + d ∧ 2 * n ≤ 2 * (roundHalfEven n d * d) + d := by
  have hdm := Nat.div_add_mod n d
  have hlt := Nat.mod_lt n hd
  have hmul : n / d * d = d * (n / d) := Nat.mul_comm _ _
  have hsucc : (n / d + 1) * d = d * (n / d) + d := by rw [Nat.add_mul, hmul, Nat.one_mul]
  unfold roundHalfEven
  simp only
  generalize hm : d * (n / d) = m at hdm hmul hsucc
  split
  · rw [hmul]; omega
  · split
    · rw [hsucc]; omega
    · split
      · rw [hmul]; omega
      · rw [hsucc]; omega

theorem roundHalfEven_error (n d : Nat) (hd : 0 < d) :
    |(roundHalfEven n d : ℚ) - (n : ℚ) / d| ≤ 1 / 2 := by
  obtain ⟨h1, h2⟩ := roundHalfEven_near n d hd
  have hdq : (0 : ℚ) < d := by exact_mod_cast hd
  have h1q : (2 : ℚ) * (roundHalfEven n d * d) ≤ 2 * n + d := by exact_mod_cast h1
  have h2q : (2 : ℚ) * n ≤ 2 * (roundHalfEven n d * d) + d := by exact_mod_cast h2
  have hx : (n : ℚ) / d * d = n := div_mul_cancel₀ _ (ne_of_gt hdq)
  generalize (n : ℚ) / d = x at hx
  rw [abs_le]
  constructor
  · apply le_of_mul_le_mul_right _ hdq
    nlinarith
  · apply le_of_mul_le_mul_right _ hdq
    nlinarith

theorem binaryLogWithin_eq_log2 (fuel n : Nat) (h : n ≤ fuel) :
    binaryLogWithin fuel n = Nat.log2 n := by
  induction fuel generalizing n with
  | zero =>
    have : n = 0 := by omega
    subst this
    rw [Nat.log2]
    rfl
  | succ fuel ih =>
    rw [binaryLogWithin, Nat.log2]
    by_cases h2 : 2 ≤ n
    · rw [if_pos h2, if_pos h2, ih (n / 2) (by omega)]
    · rw [if_neg h2, if_neg h2]

theorem binaryLog_bounds (n : Nat) (hn : n ≠ 0) :
    2 ^ binaryLog n ≤ n ∧ n < 2 ^ (binaryLog n + 1) := by
  unfold binaryLog
  rw [binaryLogWithin_eq_log2 n n (Nat.le_refl n)]
  exact ⟨Nat.log2_self_le hn, Nat.lt_log2_self⟩

theorem mantissaShift_lower (n d : Nat) (hn : n ≠ 0) (hd : d ≠ 0) :
    2 ^ 52 * (d * 2 ^ (mantissaShift n d).2) ≤ n * 2 ^ (mantissaShift n d).1 := by
  obtain ⟨ha, -⟩ := binaryLog_bounds n hn
  obtain ⟨-, hb⟩ := binaryLog_bounds d hd
  unfold mantissaShift
  simp only
  generalize binaryLog n = a at ha
  generalize binaryLog d = b at hb
  split
  · rename_i hcond
    split
    · rename_i hup
      rw [hup] at hcond
      simp only
      calc 2 ^ 52 * (d * 2 ^ (a - (53 + b) + 1))
          = 2 ^ 53 * (d * 2 ^ (a - (53 + b))) := by ring
        _ ≤ n * 2 ^ 0 := hcond
    · rename_i hup
      simp only
      have hpow : 2 ^ (53 + b - a) = 2 * 2 ^ (53 + b - a - 1) := by
        rw [← pow_succ']
        congr 1
        omega
      rw [hpow] at hcond
      have : 2 * (2 ^ 52 * (d * 2 ^ (a - (53 + b)))) ≤ 2 * (n * 2 ^ (53 + b - a - 1)) := by
        calc 2 * (2 ^ 52 * (d * 2 ^ (a - (53 + b))))
            = 2 ^ 53 * (d * 2 ^ (a - (53 + b))) := by ring
          _ ≤ n * (2 * 2 ^ (53 + b - a - 1)) := hcond
          _ = 2 * (n * 2 ^ (53 + b - a - 1)) := by ring
      omega
  · simp only
    by_cases hab : a ≤ 53 + b
    · have hdown : a - (53 + b) = 0 := by omega
      rw [hdown]
      have h1 : 2 ^ a * 2 ^ (53 + b - a) ≤ n * 2 ^ (53 + b - a) := Nat.mul_le_mul_right _ ha
      have h2 : 2 ^ a * 2 ^ (53 + b - a) = 2 ^ 52 * 2 ^ (b + 1) := by
        rw [← pow_add, ← pow_add]
        congr 1
        omega
      have h3 : 2 ^ 52 * d ≤ 2 ^ 52 * 2 ^ (b + 1) := Nat.mul_le_mul_left _ (Nat.le_of_lt hb)
      calc 2 ^ 52 * (d * 2 ^ 0) = 2 ^ 52 * d := by ring
        _ ≤ 2 ^ 52 * 2 ^ (b + 1) := h3
        _ = 2 ^ a * 2 ^ (53 + b - a) := h2.symm
        _ ≤ n * 2 ^ (53 + b - a) := h1
    · have hup : 53 + b - a = 0 := by omega
      rw [hup]
      have h2 : 2 ^ 52 * (2 ^ (b + 1) * 2 ^ (a - (53 + b))) = 2 ^ a := by
        rw [← pow_add, ← pow_add]
        congr 1
        omega
      have h3 : 2 ^ 52 * (d * 2 ^ (a - (53 + b)))
          ≤ 2 ^ 52 * (2 ^ (b + 1) * 2 ^ (a - (53 + b))) :=
        Nat.mul_le_mul_left _ (Nat.mul_le_mul_right _ (Nat.le_of_lt hb))
      calc 2 ^ 52 * (d * 2 ^ (a - (53 + b)))
          ≤ 2 ^ 52 * (2 ^ (b + 1) * 2 ^ (a - (53 + b))) := h3
        _ = 2 ^ a := h2
        _ ≤ n := ha
        _ = n * 2 ^ 0 := by ring

theorem roundToDouble_error (n d : Nat) (e : Int) (hd : d ≠ 0) :
    |(roundToDouble n d e).value - (n : ℚ) / d * 2 ^ e| ≤ (n : ℚ) / d * 2 ^ e / 2 ^ 53 := by
  by_cases hn : n = 0
  · subst hn
    simp [roundToDouble, Double.value]
  · have hlow := mantissaShift_lower n d hn hd
    unfold roundToDouble Double.value
    rw [if_neg hn]
    simp only
    generalize (mantissaShift n d).1 = up at hlow
    generalize (mantissaShift n d).2 = down at hlow
    have hden : 0 < d * 2 ^ down := Nat.mul_pos (Nat.pos_of_ne_zero hd) (Nat.pow_pos (by norm_num))
    have herr := roundHalfEven_error (n * 2 ^ up) (d * 2 ^ down) hden
    have hdq : (0 : ℚ) < d := by exact_mod_cast Nat.pos_of_ne_zero hd
    have hup : (0 : ℚ) < 2 ^ up := by positivity
    have hdown : (0 : ℚ) < 2 ^ down := by positivity
    have hdenq : (0 : ℚ) < (d : ℚ) * 2 ^ down := by positivity
    have hlowq : (2 : ℚ) ^ 52 * ((d : ℚ) * 2 ^ down) ≤ (n : ℚ) * 2 ^ up := by exact_mod_cast hlow
    push_cast at herr
    have hscale : (2 : ℚ) ^ (e + (down : Int) - (up : Int)) = 2 ^ e * 2 ^ down / 2 ^ up := by
      rw [zpow_sub₀ (by norm_num), zpow_add₀ (by norm_num), zpow_natCast, zpow_natCast]
    have hpos : (0 : ℚ) < 2 ^ e := by positivity
    rw [hscale]
    generalize hy : (n : ℚ) * 2 ^ up / ((d : ℚ) * 2 ^ down) = y at herr
    have hx : (n : ℚ) / d * 2 ^ e = y * (2 ^ e * 2 ^ down / 2 ^ up) := by
      rw [← hy]
      field_simp
      ring
    have hylow : (2 : ℚ) ^ 52 ≤ y := by
      rw [← hy, le_div_iff₀ hdenq]
      exact hlowq
    rw [hx]
    generalize hM : (roundHalfEven (n * 2 ^ up) (d * 2 ^ down) : ℚ) = M at herr
    have hs : (0 : ℚ) < 2 ^ e * 2 ^ down / 2 ^ up := by positivity
    generalize (2 : ℚ) ^ e * 2 ^ down / 2 ^ up = scale at hs
    rw [← sub_mul, abs_mul, abs_of_pos hs]
    calc |M - y| * scale ≤ 1 / 2 * scale := mul_le_mul_of_nonneg_right herr (le_of_lt hs)
      _ = 2 ^ 52 * scale / 2 ^ 53 := by ring
      _ ≤ y * scale / 2 ^ 53 := by
        apply div_le_div_of_nonneg_right _ (by positivity)
        exact mul_le_mul_of_nonneg_right hylow (le_of_lt hs)

theorem Double.value_nonneg (x : Double) : 0 ≤ x.value := by
  unfold Double.value
  positivity

theorem Double.ofNat_error (n : Nat) :
    |(Double.ofNat n).value - (n : ℚ)| ≤ (n : ℚ) / 2 ^ 53 := by
  have h := roundToDouble_error n 1 0 (by norm_num)
  simpa [Double.ofNat] using h

theorem Double.mul_error (x y : Double) :
    |(Double.mul x y).value - x.value * y.value| ≤ x.value * y.value / 2 ^ 53 := by
  have h := roundToDouble_error (x.mantissa * y.mantissa) 1 (x.exponent + y.exponent)
    (by norm_num)
  have hexact : ((x.mantissa * y.mantissa : Nat) : ℚ) / (1 : Nat) * 2 ^ (x.exponent + y.exponent)
      = x.value * y.value := by
    unfold Double.value
    rw [zpow_add₀ (by norm_num)]
    push_cast
    ring
  rw [hexact] at h
  exact h

theorem Double.div_error (x y : Double) (hy : y.mantissa ≠ 0) :
    |(Double.div x y).value - x.value / y.value| ≤ x.value / y.value / 2 ^ 53 := by
  have h := roundToDouble_error x.mantissa y.mantissa (x.exponent - y.exponent) hy
  have hexact : (x.mantissa : ℚ) / y.mantissa * 2 ^ (x.exponent - y.exponent)
      = x.value / y.value := by
    unfold Double.value
    have hm : (y.mantissa : ℚ) ≠ 0 := by exact_mod_cast hy
    rw [zpow_sub₀ (by norm_num)]
    field_simp
  rw [hexact] at h
  exact h

theorem Double.hundredths_error (x : Double) :
    |(x.hundredths : ℚ) - 100 * x.value| ≤ 1 / 2 := by
  unfold Double.hundredths Double.value
  by_cases he : 0 ≤ x.exponent
  · rw [if_pos he]
    obtain ⟨k, hk⟩ := Int.eq_ofNat_of_zero_le he
    rw [hk]
    simp only [Int.toNat_ofNat, zpow_natCast]
    push_cast
    rw [show (100 : ℚ) * (x.mantissa : ℚ) * 2 ^ k - 100 * ((x.mantissa : ℚ) * 2 ^ k) = 0 by ring]
    norm_num
  · rw [if_neg he]
    have hneg : x.exponent = -((-x.exponent).toNat : Int) := by
      rw [Int.toNat_of_nonneg (by omega)]
      omega
    have herr := roundHalfEven_error (100 * x.mantissa) (2 ^ (-x.exponent).toNat)
      (Nat.pow_pos (by norm_num))
    have hexact : ((100 * x.mantissa : Nat) : ℚ) / ((2 ^ (-x.exponent).toNat : Nat) : ℚ)
        = 100 * ((x.mantissa : ℚ) * 2 ^ x.exponent) := by
      conv_rhs => rw [hneg]
      rw [zpow_neg, zpow_natCast]
      push_cast
      field_simp
    rw [hexact] at herr
    exact herr

theorem quotient_error (u ε P T A B C Z : ℚ)
    (hu0 : 0 ≤ u) (hu1 : u < 1)
    (hup : 100 * ((1 + u) ^ 3 - (1 - u)) ≤ ε * (1 - u))
    (hdown : 100 * ((1 + u) - (1 - u) ^ 3) ≤ ε * (1 + u))
    (hP : 0 ≤ P) (hPT : P ≤ T) (hT : 0 < T)
    (hA : |A - P| ≤ P * u) (hB : |B - 100 * A| ≤ 100 * A * u)
    (hC : |C - T| ≤ T * u) (hZ : |Z - B / C| ≤ B / C * u) :
    |Z - 100 * P / T| ≤ ε := by
  obtain ⟨hA1, hA2⟩ := abs_le.1 hA
  obtain ⟨hB1, hB2⟩ := abs_le.1 hB
  obtain ⟨hC1, hC2⟩ := abs_le.1 hC
  obtain ⟨hZ1, hZ2⟩ := abs_le.1 hZ
  have h1u : 0 < 1 - u := by linarith
  have h1pu : 0 < 1 + u := by linarith
  have hCpos : 0 < C := by
    have := mul_pos hT h1u
    linarith
  have hA0 : 0 ≤ A := by
    have := mul_nonneg hP (le_of_lt h1u)
    linarith
  have hB0 : 0 ≤ B := by
    have := mul_nonneg hA0 (le_of_lt h1u)
    linarith
  have hq : B / C * C = B := div_mul_cancel₀ _ (ne_of_gt hCpos)
  have hq0 : 0 ≤ B / C := div_nonneg hB0 (le_of_lt hCpos)
  generalize B / C = q at hq hq0 hZ1 hZ2
  have hZ0 : 0 ≤ Z := by
    have := mul_nonneg hq0 (le_of_lt h1u)
    linarith
  have hZCup : Z * C ≤ B * (1 + u) := by
    have h : Z * C ≤ (q * (1 + u)) * C :=
      mul_le_mul_of_nonneg_right (by linarith) (le_of_lt hCpos)
    have e : (q * (1 + u)) * C = (q * C) * (1 + u) := by ring
    rw [e, hq] at h
    exact h
  have hZCdown : B * (1 - u) ≤ Z * C := by
    have h : (q * (1 - u)) * C ≤ Z * C :=
      mul_le_mul_of_nonneg_right (by linarith) (le_of_lt hCpos)
    have e : (q * (1 - u)) * C = (q * C) * (1 - u) := by ring
    rw [e, hq] at h
    exact h
  have hAup : A ≤ P * (1 + u) := by linarith
  have hAdown : P * (1 - u) ≤ A := by linarith
  have hBup : B ≤ 100 * A * (1 + u) := by linarith
  have hBdown : 100 * A * (1 - u) ≤ B := by linarith
  have hCup : C ≤ T * (1 + u) := by linarith
  have hCdown : T * (1 - u) ≤ C := by linarith
  have hupper : Z * (T * (1 - u)) ≤ 100 * P * (1 + u) ^ 3 := by
    calc Z * (T * (1 - u)) ≤ Z * C := mul_le_mul_of_nonneg_left hCdown hZ0
      _ ≤ B * (1 + u) := hZCup
      _ ≤ 100 * A * (1 + u) * (1 + u) := mul_le_mul_of_nonneg_right hBup (le_of_lt h1pu)
      _ ≤ 100 * (P * (1 + u)) * (1 + u) * (1 + u) := by
        apply mul_le_mul_of_nonneg_right _ (le_of_lt h1pu)
        apply mul_le_mul_of_nonneg_right _ (le_of_lt h1pu)
        linarith
      _ = 100 * P * (1 + u) ^ 3 := by ring
  have hlower : 100 * P * (1 - u) ^ 3 ≤ Z * (T * (1 + u)) := by
    calc 100 * P * (1 - u) ^ 3 = 100 * (P * (1 - u)) * (1 - u) * (1 - u) := by ring
      _ ≤ 100 * A * (1 - u) * (1 - u) := by
        apply mul_le_mul_of_nonneg_right _ (le_of_lt h1u)
        apply mul_le_mul_of_nonneg_right _ (le_of_lt h1u)
        linarith
      _ ≤ B * (1 - u) := mul_le_mul_of_nonneg_right hBdown (le_of_lt h1u)
      _ ≤ Z * C := hZCdown
      _ ≤ Z * (T * (1 + u)) := mul_le_mul_of_nonneg_left hCup hZ0
  have hx : 100 * P / T * T = 100 * P := div_mul_cancel₀ _ (ne_of_gt hT)
  generalize 100 * P / T = x at hx
  have hu2 : 0 ≤ u * u := mul_nonneg hu0 hu0
  have hu3 : 0 ≤ u * u * u := mul_nonneg hu2 hu0
  have hgap1 : 0 ≤ (1 + u) ^ 3 - (1 - u) := by
    have e : (1 + u) ^ 3 - (1 - u) = 4 * u + 3 * (u * u) + u * u * u := by ring
    rw [e]
    linarith
  have hgap2 : 0 ≤ (1 + u) - (1 - u) ^ 3 := by
    have e : (1 + u) - (1 - u) ^ 3 = 4 * u - 3 * (u * u) + u * u * u := by ring
    have huu : u * u ≤ u := by
      have := mul_le_mul_of_nonneg_left (le_of_lt hu1) hu0
      linarith
    rw [e]
    linarith
  have hPT1 := mul_le_mul_of_nonneg_right hPT hgap1
  have hPT2 := mul_le_mul_of_nonneg_right hPT hgap2
  have hTup := mul_le_mul_of_nonneg_left hup (le_of_lt hT)
  have hTdown := mul_le_mul_of_nonneg_left hdown (le_of_lt hT)
  rw [abs_le]
  constructor
  · refine le_of_mul_le_mul_right ?_ (mul_pos hT h1pu)
    have e : (Z - x) * (T * (1 + u)) = Z * (T * (1 + u)) - (x * T) * (1 + u) := by ring
    rw [e, hx]
    linarith
  · refine le_of_mul_le_mul_right ?_ (mul_pos hT h1u)
    have e : (Z - x) * (T * (1 - u)) = Z * (T * (1 - u)) - (x * T) * (1 - u) := by ring
    rw [e, hx]
    linarith

theorem Double.ofNat_hundred : (Double.ofNat 100).value = 100 := by
  have h : Double.ofNat 100 = ⟨7036874417766400, -46⟩ := by decide
  rw [h]
  norm_num [Double.value]

theorem passRateHundredths_near (p t : Nat) (ht : 0 < t) (hpt : p ≤ t) :
    |(passRateHundredths p t : ℚ) / 100 - 100 * (p : ℚ) / t| ≤ 1 / 200 + 1 / 2 ^ 44
    ∧ (t < 2 ^ 36 → |(passRateHundredths p t : ℚ) - 10000 * (p : ℚ) / t| ≤ 1 / 2) := by
  have hT : (0 : ℚ) < t := by exact_mod_cast ht
  have hP : (0 : ℚ) ≤ p := by exact_mod_cast Nat.zero_le p
  have hPT : (p : ℚ) ≤ t := by exact_mod_cast hpt
  have hA := Double.ofNat_error p
  have hB := Double.mul_error (Double.ofNat 100) (Double.ofNat p)
  rw [Double.ofNat_hundred] at hB
  have hC := Double.ofNat_error t
  have hmant : (Double.ofNat t).mantissa ≠ 0 := by
    intro h0
    have hv : (Double.ofNat t).value = 0 := by
      unfold Double.value
      rw [h0]
      simp
    rw [hv] at hC
    have h1 := (abs_le.1 hC).1
    have h2 : (t : ℚ) / 2 ^ 53 ≤ (t : ℚ) / 2 := by
      apply div_le_div_of_nonneg_left (le_of_lt hT) (by norm_num) (by norm_num)
    linarith
  have hZ := Double.div_error (Double.mul (Double.ofNat 100) (Double.ofNat p)) (Double.ofNat t)
    hmant
  have hH := Double.hundredths_error
    (Double.div (Double.mul (Double.ofNat 100) (Double.ofNat p)) (Double.ofNat t))
  have hquot := quotient_error (1 / 2 ^ 53) (1 / 2 ^ 44) p t (Double.ofNat p).value
    (Double.mul (Double.ofNat 100) (Double.ofNat p)).value (Double.ofNat t).value
    (Double.div (Double.mul (Double.ofNat 100) (Double.ofNat p)) (Double.ofNat t)).value
    (by norm_num) (by norm_num) (by norm_num) (by norm_num) hP hPT hT
    (by rw [mul_one_div]; exact hA) (by rw [mul_one_div]; exact hB)
    (by rw [mul_one_div]; exact hC) (by rw [mul_one_div]; exact hZ)
  have hdef : passRateHundredths p t
      = (Double.div (Double.mul (Double.ofNat 100) (Double.ofNat p))
          (Double.ofNat t)).hundredths := rfl
  rw [hdef]
  generalize ((Double.div (Double.mul (Double.ofNat 100) (Double.ofNat p))
    (Double.ofNat t)).hundredths) = H at hH
  generalize (Double.div (Double.mul (Double.ofNat 100) (Double.ofNat p))
    (Double.ofNat t)).value = Z at hH hquot
  obtain ⟨hH1, hH2⟩ := abs_le.1 hH
  obtain ⟨hq1, hq2⟩ := abs_le.1 hquot
  have hx : 100 * (p : ℚ) / t * t = 100 * p := div_mul_cancel₀ _ (ne_of_gt hT)
  have hx2 : 10000 * (p : ℚ) / t = 100 * (100 * (p : ℚ) / t) := by ring
  generalize 100 * (p : ℚ) / t = x at hx hx2 hq1 hq2
  have hloose : |(H : ℚ) - 100 * x| ≤ 1 / 2 + 100 / 2 ^ 44 := by
    rw [abs_le]
    constructor <;> linarith
  refine ⟨?_, ?_⟩
  · rw [abs_le]
    constructor <;> linarith
  · intro hsmall
    rw [hx2]
    have hTs : (t : ℚ) < 2 ^ 36 := by exact_mod_cast hsmall
    obtain ⟨hl1, hl2⟩ := abs_le.1 hloose
    have hgap : (100 : ℚ) / 2 ^ 44 * t < 1 / 2 := by
      have : (100 : ℚ) / 2 ^ 44 * t < 100 / 2 ^ 44 * 2 ^ 36 :=
        mul_lt_mul_of_pos_left hTs (by norm_num)
      have h2 : (100 : ℚ) / 2 ^ 44 * 2 ^ 36 < 1 / 2 := by norm_num
      linarith
    have e1 : ((H : ℚ) - 100 * x) * t = (H : ℚ) * t - 10000 * p := by
      have : 100 * x * t = 100 * (x * t) := by ring
      rw [sub_mul, this, hx]
      ring
    have hup : (H : ℚ) * t - 10000 * p < t / 2 + 1 / 2 := by
      have := mul_le_mul_of_nonneg_right hl2 (le_of_lt hT)
      rw [e1] at this
      linarith
    have hdn : -((t : ℚ) / 2 + 1 / 2) < (H : ℚ) * t - 10000 * p := by
      have := mul_le_mul_of_nonneg_right hl1 (le_of_lt hT)
      rw [e1] at this
      linarith
    have hupZ : 2 * ((H : ℤ) * t - 10000 * p) < t + 1 := by
      have : (2 : ℚ) * ((H : ℚ) * t - 10000 * p) < t + 1 := by linarith
      exact_mod_cast this
    have hdnZ : -((t : ℤ) + 1) < 2 * ((H : ℤ) * t - 10000 * p) := by
      have : -((t : ℚ) + 1) < (2 : ℚ) * ((H : ℚ) * t - 10000 * p) := by linarith
      exact_mod_cast this
    have hupQ : (2 : ℚ) * ((H : ℚ) * t - 10000 * p) ≤ t := by
      have : 2 * ((H : ℤ) * t - 10000 * p) ≤ t := by omega
      exact_mod_cast this
    have hdnQ : -(t : ℚ) ≤ (2 : ℚ) * ((H : ℚ) * t - 10000 * p) := by
      have : -(t : ℤ) ≤ 2 * ((H : ℤ) * t - 10000 * p) := by omega
      exact_mod_cast this
    rw [abs_le]
    constructor
    · refine le_of_mul_le_mul_right ?_ hT
      rw [e1]
      linarith
    · refine le_of_mul_le_mul_right ?_ hT
      rw [e1]
      linarith

theorem foldl_preserves {α : Type} (Q : PassRate → Prop) (f : PassRate → α → PassRate)
    (hstep : ∀ r node, Q r → Q (f r node)) (l : List α) (r : PassRate) (hr : Q r) :
    Q (l.foldl f r) := by
  induction l generalizing r with
  | nil => exact hr
  | cons node rest ih => exact ih (f r node) (hstep r node hr)

theorem count_total (r : PassRate) (result : TestResult)
    (hr : r.total = r.unknown + r.passed + r.passedButMemoryLeaks + r.exception + r.failed
      + r.skipped) :
    (r.count result).total = (r.count result).unknown + (r.count result).passed
      + (r.count result).passedButMemoryLeaks + (r.count result).exception
      + (r.count result).failed + (r.count result).skipped := by
  cases result <;> simp only [PassRate.count] <;> omega

theorem getPassRate_total (t : Test) :
    t.getPassRate.total = t.getPassRate.unknown + t.getPassRate.passed
      + t.getPassRate.passedButMemoryLeaks + t.getPassRate.exception + t.getPassRate.failed
      + t.getPassRate.skipped := by
  unfold Test.getPassRate
  apply foldl_preserves (fun r => r.total = r.unknown + r.passed + r.passedButMemoryLeaks
    + r.exception + r.failed + r.skipped)
  · intro r node hr
    cases node with
    | test name result => exact count_total r result hr
    | sequence name result m_tests =>
      cases m_tests with
      | nil => exact count_total r TestResult.unknown hr
      | cons child rest => exact hr
  · rfl

theorem foldl_passed {α : Type} (f : PassRate → α → PassRate) (isPassed : α → Bool)
    (hstep : ∀ r node, (f r node).passed = r.passed + if isPassed node then 1 else 0)
    (l : List α) (r : PassRate) :
    (l.foldl f r).passed = r.passed + (l.filter isPassed).length := by
  induction l generalizing r with
  | nil => simp
  | cons node rest ih =>
    rw [List.foldl_cons, ih, hstep, List.filter_cons]
    cases isPassed node <;> simp
    omega

theorem getPassRate_passed (t : Test) :
    t.getPassRate.passed = (t.traverse.filter Test.isPassedLeaf).length := by
  unfold Test.getPassRate
  rw [foldl_passed _ Test.isPassedLeaf]
  · simp
  · intro r node
    cases node with
    | test name result => cases result <;> simp [PassRate.count, Test.isPassedLeaf]
    | sequence name result m_tests =>
      cases m_tests <;> simp [PassRate.count, Test.isPassedLeaf]

set_option maxRecDepth 8000

/-- C11: when the total is positive and the pass rate is formatted as
iostream formats the double `100 * (double)passed / (double)total`,
`printSummary` prints "Pass rate: ", then a number with exactly two decimals,
then "% (" and the counters. The number is that of the `passed` counter (the
leaves whose result is passed) over the total, which is the sum of the six
counters, in hundredths: it differs from `100 * passed / total` by at most
half a hundredth and 2 ^ -44, and for a total below 2 ^ 36 by at most half a
hundredth. -/
theorem printSummary_pass_rate (h : TestHarness) (env : Collaborators) (out : Console)
    (htotal : 0 < h.m_topSequence.getPassRate.total) :
    (∃ counters banner,
      h.printSummary { env with cout := standardCout, passRateText := doublePassRateText } out
        = .ok (out ++ ["Pass rate: "
            ++ fixedTwoDecimals (passRateHundredths h.m_topSequence.getPassRate.passed
                h.m_topSequence.getPassRate.total)
            ++ "% (" ++ counters, "", banner]))
    ∧ (fixedTwoDecimals (passRateHundredths h.m_topSequence.getPassRate.passed
          h.m_topSequence.getPassRate.total)).data
        = (toString (passRateHundredths h.m_topSequence.getPassRate.passed
            h.m_topSequence.getPassRate.total / 100)).data
          ++ ['.', Nat.digitChar (passRateHundredths h.m_topSequence.getPassRate.passed
              h.m_topSequence.getPassRate.total / 10 % 10),
            Nat.digitChar (passRateHundredths h.m_topSequence.getPassRate.passed
              h.m_topSequence.getPassRate.total % 10)]
    ∧ |(passRateHundredths h.m_topSequence.getPassRate.passed
          h.m_topSequence.getPassRate.total : ℚ) / 100
        - 100 * (h.m_topSequence.getPassRate.passed : ℚ) / h.m_topSequence.getPassRate.total|
        ≤ 1 / 200 + 1 / 2 ^ 44
    ∧ (h.m_topSequence.getPassRate.total < 2 ^ 36 →
        |(passRateHundredths h.m_topSequence.getPassRate.passed
            h.m_topSequence.getPassRate.total : ℚ)
          - 10000 * (h.m_topSequence.getPassRate.passed : ℚ)
              / h.m_topSequence.getPassRate.total| ≤ 1 / 2)
    ∧ h.m_topSequence.getPassRate.passed
        = (h.m_topSequence.traverse.filter Test.isPassedLeaf).length
    ∧ h.m_topSequence.getPassRate.total
        = h.m_topSequence.getPassRate.unknown + h.m_topSequence.getPassRate.passed
          + h.m_topSequence.getPassRate.passedButMemoryLeaks
          + h.m_topSequence.getPassRate.exception + h.m_topSequence.getPassRate.failed
          + h.m_topSequence.getPassRate.skipped := by
  have hsum := getPassRate_total h.m_topSequence
  have hle : h.m_topSequence.getPassRate.passed ≤ h.m_topSequence.getPassRate.total := by omega
  have hnear := passRateHundredths_near _ _ htotal hle
  refine ⟨?_, ?_, hnear.1, hnear.2, getPassRate_passed _, hsum⟩
  swap
  · unfold fixedTwoDecimals
    simp only [String.data_append, List.append_assoc]
    rfl
  have htext : doublePassRateText h.m_topSequence.getPassRate.passed
      h.m_topSequence.getPassRate.total
      = fixedTwoDecimals (passRateHundredths h.m_topSequence.getPassRate.passed
          h.m_topSequence.getPassRate.total) := by
    unfold doublePassRateText
    rw [if_neg (by omega)]
  unfold TestHarness.printSummary
  simp only [htext]
  refine ⟨toString h.m_topSequence.getPassRate.unknown ++ " unknown, "
    ++ toString h.m_topSequence.getPassRate.passed ++ " passed, "
    ++ toString h.m_topSequence.getPassRate.passedButMemoryLeaks
    ++ " passed but with memory leaks, "
    ++ toString h.m_topSequence.getPassRate.exception ++ " threw exceptions, "
    ++ toString h.m_topSequence.getPassRate.failed ++ " failed, "
    ++ toString h.m_topSequence.getPassRate.skipped ++ " skipped, "
    ++ toString h.m_topSequence.getPassRate.total ++ " total)",
    if (!h.m_topSequence.passed && !h.m_topSequence.skipped) = true
      then "Test Suite FAILED!!!" else "Test Suite passed", ?_⟩
  split <;>
    simp [standardCout, bind, Except.bind, pure, Except.pure, String.append_assoc]

/-- The witness of C11: for three leaves passed and one failed the summary
starts with "Pass rate: 75.00% (". -/
theorem printSummary_pass_rate_witness :
    threeOfFourHarness.printSummary
        { quietCollaborators with passRateText := doublePassRateText } []
      = .ok ["Pass rate: 75.00% (0 unknown, 3 passed, 0 passed but with memory leaks, "
          ++ "0 threw exceptions, 1 failed, 0 skipped, 4 total)", "", "Test Suite FAILED!!!"]
    ∧ |(passRateHundredths 3 4 : ℚ) / 100 - 100 * ((3 : Nat) : ℚ) / (4 : Nat)|
        ≤ 1 / 200 + 1 / 2 ^ 44 :=
  ⟨rfl, (printSummary_pass_rate threeOfFourHarness quietCollaborators [] (by decide)).2.2.1⟩

/-! ## What a set operation leaves alone -/

theorem getDirectory_congr (c1 c2 : TestContext) (role : Role) (id : String)
    (hparent : c1.m_parent = c2.m_parent)
    (hlookup : (c1.localDirectories role).lookup id = (c2.localDirectories role).lookup id) :
    c1.getDirectory role id = c2.getDirectory role id := by
  cases hp : c2.m_parent with
  | none =>
    rw [getDirectory_of_root c1 role id (hparent.trans hp), getDirectory_of_root c2 role id hp,
      hlookup]
  | some parent =>
    rw [getDirectory_of_parent c1 parent role id (hparent.trans hp),
      getDirectory_of_parent c2 parent role id hp, hlookup]

theorem getApplicationPath_congr (c1 c2 : TestContext)
    (hparent : c1.m_parent = c2.m_parent)
    (hpath : c1.m_application_path = c2.m_application_path) :
    c1.getApplicationPath = c2.getApplicationPath := by
  obtain ⟨p1, d1, r1, o1, a1⟩ := c1
  obtain ⟨p2, d2, r2, o2, a2⟩ := c2
  simp only at hparent hpath
  subst hparent hpath
  cases a1 with
  | some path => rw [TestContext.getApplicationPath, TestContext.getApplicationPath]
  | none =>
    cases p1 with
    | none => rw [TestContext.getApplicationPath, TestContext.getApplicationPath]
    | some parent => rw [TestContext.getApplicationPath, TestContext.getApplicationPath]

theorem setDirectory_localDirectories_other (c : TestContext) (expand : String → String)
    (role other : Role) (id : String) (path : Path) (hne : other ≠ role) :
    (c.setDirectory expand role id path).localDirectories other = c.localDirectories other := by
  cases role <;> cases other <;> first | rfl | exact absurd rfl hne

theorem setDirectory_lookup_other (c : TestContext) (expand : String → String)
    (role : Role) (id other : String) (path : Path) (hne : other ≠ id) :
    ((c.setDirectory expand role id path).localDirectories role).lookup other
      = (c.localDirectories role).lookup other := by
  cases role <;> exact lookup_mapAssign_ne _ _ _ _ hne

theorem setDirectory_application_path (c : TestContext) (expand : String → String)
    (role : Role) (id : String) (path : Path) :
    (c.setDirectory expand role id path).m_application_path = c.m_application_path := by
  cases role <;> rfl

/-- C22: `setDirectory(R, id, path)` changes, of the context it is called on,
only the local mapping of role R for `id`: the maps of the other two roles
and the mappings of R for every other id are what they were, and so the
getters of the other two roles for every id, the getter of R for every other
id and `getApplicationPath` return what they returned before, the same path
or the same failure. `setApplicationPath` likewise leaves the three maps and
the result of every getter of a directory as they were. -/
theorem setDirectory_frame (c : TestContext) (expand : String → String) (role : Role)
    (id : String) (path : Path) :
    (∀ other, other ≠ role →
      (c.setDirectory expand role id path).localDirectories other = c.localDirectories other)
    ∧ (∀ otherId, otherId ≠ id →
      ((c.setDirectory expand role id path).localDirectories role).lookup otherId
        = (c.localDirectories role).lookup otherId)
    ∧ (∀ other otherId, other ≠ role →
      (c.setDirectory expand role id path).getDirectory other otherId
        = c.getDirectory other otherId)
    ∧ (∀ otherId, otherId ≠ id →
      (c.setDirectory expand role id path).getDirectory role otherId
        = c.getDirectory role otherId)
    ∧ (c.setDirectory expand role id path).getApplicationPath = c.getApplicationPath
    ∧ (∀ applicationPath anyRole,
      (c.setApplicationPath applicationPath).localDirectories anyRole
        = c.localDirectories anyRole)
    ∧ (∀ applicationPath anyRole anyId,
      (c.setApplicationPath applicationPath).getDirectory anyRole anyId
        = c.getDirectory anyRole anyId) := by
  refine ⟨?_, ?_, ?_, ?_, ?_, ?_, ?_⟩
  · intro other hne
    exact setDirectory_localDirectories_other c expand role other id path hne
  · intro otherId hne
    exact setDirectory_lookup_other c expand role id otherId path hne
  · intro other otherId hne
    apply getDirectory_congr _ _ _ _ (setDirectory_parent c expand role id path)
    rw [setDirectory_localDirectories_other c expand role other id path hne]
  · intro otherId hne
    exact getDirectory_congr _ _ _ _ (setDirectory_parent c expand role id path)
      (setDirectory_lookup_other c expand role id otherId path hne)
  · exact getApplicationPath_congr _ _ (setDirectory_parent c expand role id path)
      (setDirectory_application_path c expand role id path)
  · intro applicationPath anyRole
    cases anyRole <;> rfl
  · intro applicationPath anyRole anyId
    exact getDirectory_congr (c.setApplicationPath applicationPath) c anyRole anyId rfl
      (by cases anyRole <;> rfl)

/-- An instance of C22: on a child whose parent maps the output id "x" to
"out", setting the data directory "(default)" to "in" leaves the output
directory "x" at "out" and the data directory "y" failing as before. -/
theorem setDirectory_frame_witness :
    ((TestContext.createWithParent (some ⟨none, [], [], [("x", ⟨"out"⟩)], none⟩)).setDirectory
        (fun s => s) Role.data "(default)" ⟨"in"⟩).getDirectory Role.output "x" = .ok ⟨"out"⟩
    ∧ ((TestContext.createWithParent (some ⟨none, [], [], [("x", ⟨"out"⟩)], none⟩)).setDirectory
        (fun s => s) Role.data "(default)" ⟨"in"⟩).getDirectory Role.data "y"
      = .error ⟨"getDataDirectory: no directory found with id y"⟩ :=
  ⟨((setDirectory_frame _ (fun s => s) Role.data "(default)" ⟨"in"⟩).2.2.1 Role.output "x"
      (by decide)).trans rfl,
   ((setDirectory_frame _ (fun s => s) Role.data "(default)" ⟨"in"⟩).2.2.2.1 "y"
      (by decide)).trans rfl⟩

/-! ## The candidates of getReferencePath -/

/-- C23: when resolution is requested, `getReferencePath` fails exactly as
the reference directory does, and when the reference directory resolves to a
directory it returns a path that is one of three: the candidate qualified by
the platform family, the candidate qualified by "unix", or the unqualified
base path, each appended to that directory. A returned path that differs from
the unqualified one exists according to the filesystem probe, and a returned
path that the probe does not find is the unqualified one. -/
theorem getReferencePath_candidates (c : TestContext) (os_family : String)
    (Exists : Path → Bool) (path : Path) :
    (∀ e, c.getReferenceDirectory "(default)" = .error e →
      c.getReferencePath os_family Exists path PathResolution.platform_specific = .error e)
    ∧ (∀ directory, c.getReferenceDirectory "(default)" = .ok directory →
      ∃ returned,
        c.getReferencePath os_family Exists path PathResolution.platform_specific = .ok returned
        ∧ (returned = directory / platform_specific_path os_family path
            ∨ returned = directory / platform_specific_path "unix" path
            ∨ returned = directory / path)
        ∧ (returned ≠ directory / path → Exists returned = true)
        ∧ (Exists returned = false → returned = directory / path)) := by
  rw [getReferencePath_resolved]
  constructor
  · intro e he
    rw [he]
    rfl
  · intro directory hd
    rw [hd]
    simp only [Except.map]
    by_cases h1 : Exists (directory / platform_specific_path os_family path) = true
    · rw [if_pos h1]
      exact ⟨_, rfl, Or.inl rfl, fun _ => h1, fun h => absurd h1 (by rw [h]; decide)⟩
    · rw [if_neg h1]
      by_cases hf : os_family = "linux" ∨ os_family = "cygwin"
      · rw [if_pos hf]
        by_cases h2 : Exists (directory / platform_specific_path "unix" path) = true
        · rw [if_pos h2]
          exact ⟨_, rfl, Or.inr (Or.inl rfl), fun _ => h2,
            fun h => absurd h2 (by rw [h]; decide)⟩
        · rw [if_neg h2]
          exact ⟨_, rfl, Or.inr (Or.inr rfl), fun h => absurd rfl h, fun _ => rfl⟩
      · rw [if_neg hf]
        exact ⟨_, rfl, Or.inr (Or.inr rfl), fun h => absurd rfl h, fun _ => rfl⟩

/-- An instance of C23: on linux, under the reference directory "ref", with
only "ref/foo.unix.expected" on the filesystem, the path returned for
"foo.expected" is one of the three candidates and exists when it is not
"ref/foo.expected". -/
theorem getReferencePath_candidates_witness :
    (∃ returned,
      (TestContext.mk none [] [("(default)", ⟨"ref"⟩)] [] none).getReferencePath "linux"
          (fun p => p == ⟨"ref/foo.unix.expected"⟩) ⟨"foo.expected"⟩
          PathResolution.platform_specific = .ok returned
      ∧ (returned = (⟨"ref"⟩ : Path) / platform_specific_path "linux" ⟨"foo.expected"⟩
          ∨ returned = (⟨"ref"⟩ : Path) / platform_specific_path "unix" ⟨"foo.expected"⟩
          ∨ returned = (⟨"ref"⟩ : Path) / (⟨"foo.expected"⟩ : Path))
      ∧ (returned ≠ (⟨"ref"⟩ : Path) / (⟨"foo.expected"⟩ : Path) →
          (fun p => p == (⟨"ref/foo.unix.expected"⟩ : Path)) returned = true)
      ∧ ((fun p => p == (⟨"ref/foo.unix.expected"⟩ : Path)) returned = false →
          returned = (⟨"ref"⟩ : Path) / (⟨"foo.expected"⟩ : Path)))
    ∧ (TestContext.mk none [] [("(default)", ⟨"ref"⟩)] [] none).getReferencePath "linux"
        (fun p => p == ⟨"ref/foo.unix.expected"⟩) ⟨"foo.expected"⟩
        PathResolution.platform_specific = .ok ⟨"ref/foo.unix.expected"⟩ :=
  ⟨(getReferencePath_candidates ⟨none, [], [("(default)", ⟨"ref"⟩)], [], none⟩ "linux"
    (fun p => p == ⟨"ref/foo.unix.expected"⟩) ⟨"foo.expected"⟩).2 ⟨"ref"⟩ rfl, rfl⟩

/-! ## Chains under a default-constructed root -/

theorem isSome_lookup_mapAssign (m : List (String × Path)) (id other : String) (path : Path)
    (h : (m.lookup other).isSome = true) :
    ((mapAssign m id path).lookup other).isSome = true := by
  by_cases hne : other = id
  · subst hne
    rw [lookup_mapAssign_self]
    rfl
  · rw [lookup_mapAssign_ne m id other path hne]
    exact h

theorem setDirectory_lookup_isSome (c : TestContext) (expand : String → String)
    (role other : Role) (id otherId : String) (path : Path)
    (h : ((c.localDirectories other).lookup otherId).isSome = true) :
    (((c.setDirectory expand role id path).localDirectories other).lookup otherId).isSome
      = true := by
  cases role <;> cases other <;>
    first
    | exact h
    | exact isSome_lookup_mapAssign _ _ _ _ h

theorem rootOf_of_parent (c parent : TestContext) (hp : c.m_parent = some parent) :
    c.rootOf = parent.rootOf := by
  obtain ⟨m_parent, d, r, o, a⟩ := c
  simp only at hp
  subst hp
  rw [TestContext.rootOf]

theorem rootOf_of_root (c : TestContext) (hp : c.m_parent = none) : c.rootOf = c := by
  obtain ⟨m_parent, d, r, o, a⟩ := c
  simp only at hp
  subst hp
  rw [TestContext.rootOf]

theorem rootOf_chain (c : TestContext) : ∀ n ∈ c.chain, n.rootOf = c.rootOf := by
  induction c using TestContext.chain.induct with
  | case1 m_parent d r o a ih =>
    intro n hn
    rw [TestContext.chain, List.mem_cons] at hn
    rcases hn with hn | hn
    · rw [hn]
    · rw [ih n hn, TestContext.rootOf]
  | case2 d r o a =>
    intro n hn
    rw [TestContext.chain, List.mem_singleton] at hn
    rw [hn]

theorem setDirectoryAt_root_lookup_isSome (expand : String → String) (role : Role)
    (id : String) (path : Path) (other : Role) (otherId : String) (depth : Nat) :
    ∀ c : TestContext, ((c.rootOf.localDirectories other).lookup otherId).isSome = true →
      (((TestContext.setDirectoryAt expand role id path c depth).rootOf.localDirectories
        other).lookup otherId).isSome = true := by
  induction depth with
  | zero =>
    intro c h
    rw [TestContext.setDirectoryAt]
    cases hp : c.m_parent with
    | some parent =>
      rw [rootOf_of_parent _ parent ((setDirectory_parent c expand role id path).trans hp)]
      rw [rootOf_of_parent c parent hp] at h
      exact h
    | none =>
      rw [rootOf_of_root _ ((setDirectory_parent c expand role id path).trans hp)]
      rw [rootOf_of_root c hp] at h
      exact setDirectory_lookup_isSome c expand role other id otherId path h
  | succ depth ih =>
    intro c h
    obtain ⟨m_parent, d, r, o, a⟩ := c
    cases m_parent with
    | some parent =>
      rw [TestContext.setDirectoryAt, TestContext.rootOf]
      rw [TestContext.rootOf] at h
      exact ih parent h
    | none =>
      rw [TestContext.setDirectoryAt]
      exact h

theorem getDirectory_of_root_lookup (role : Role) (id : String) (c : TestContext) :
    ((c.rootOf.localDirectories role).lookup id).isSome = true →
      ∃ p, c.getDirectory role id = .ok p := by
  induction c using TestContext.chain.induct with
  | case1 m_parent d r o a ih =>
    intro h
    rw [TestContext.rootOf] at h
    obtain ⟨p, hp⟩ := ih h
    rw [getDirectory_of_parent _ m_parent role id rfl, hp]
    cases (TestContext.localDirectories ⟨some m_parent, d, r, o, a⟩ role).lookup id with
    | some second => exact ⟨p / second, rfl⟩
    | none => exact ⟨p, rfl⟩
  | case2 d r o a =>
    intro h
    rw [TestContext.rootOf] at h
    rw [getDirectory_of_root _ role id rfl]
    cases hl : (TestContext.localDirectories ⟨none, d, r, o, a⟩ role).lookup id with
    | some second => exact ⟨second, rfl⟩
    | none =>
      rw [hl] at h
      cases h

theorem DefaultRooted.root_has_default (expand : String → String) (c : TestContext)
    (h : DefaultRooted expand c) (role : Role) :
    ((c.rootOf.localDirectories role).lookup "(default)").isSome = true := by
  induction h with
  | root => cases role <;> rfl
  | child parent _ ih =>
    rw [rootOf_of_parent _ parent rfl]
    exact ih
  | set c depth setRole id path _ ih =>
    exact setDirectoryAt_root_lookup_isSome expand setRole id path role "(default)" depth c ih

theorem untouchedChain_defaultRooted (expand : String → String) (depth : Nat) :
    DefaultRooted expand (TestContext.untouchedChain depth) := by
  induction depth with
  | zero => exact DefaultRooted.root
  | succ depth ih => exact DefaultRooted.child _ ih

theorem untouchedChain_getDirectory (role : Role) (depth : Nat) :
    ∀ n ∈ (TestContext.untouchedChain depth).chain, n.getDirectory role "(default)" = .ok ⟨""⟩ := by
  induction depth with
  | zero =>
    intro n hn
    rw [TestContext.untouchedChain, TestContext.create, TestContext.chain,
      List.mem_singleton] at hn
    rw [hn]
    cases role <;> rfl
  | succ depth ih =>
    intro n hn
    rw [TestContext.untouchedChain, TestContext.createWithParent, TestContext.chain,
      List.mem_cons] at hn
    rcases hn with hn | hn
    · rw [hn, getDirectory_of_parent _ (TestContext.untouchedChain depth) role "(default)" rfl]
      have hl : (TestContext.localDirectories
          ⟨some (TestContext.untouchedChain depth), [], [], [], none⟩ role).lookup "(default)"
          = none := by
        cases role <;> rfl
      rw [hl]
      refine ih _ ?_
      cases hc : TestContext.untouchedChain depth with
      | mk m_parent d r o a =>
        cases m_parent with
        | some parent =>
          rw [TestContext.chain]
          exact List.mem_cons_self _ _
        | none =>
          rw [TestContext.chain]
          exact List.mem_singleton.mpr rfl
    · exact ih n hn

/-- C21: on a chain whose root was built by the default constructor, after
any sequence of `setDirectory` calls on its nodes, `getDataDirectory()`,
`getReferenceDirectory()` and `getOutputDirectory()` return a path at every
node of the chain; and on such a chain of any depth on which no set operation
was applied, the three of them return the empty path at every node. -/
theorem default_directories_resolve (expand : String → String) (c : TestContext)
    (h : DefaultRooted expand c) :
    (∀ n ∈ c.chain,
      (∃ p, n.getDataDirectoryDefault = .ok p)
      ∧ (∃ p, n.getReferenceDirectoryDefault = .ok p)
      ∧ (∃ p, n.getOutputDirectoryDefault = .ok p))
    ∧ (∀ depth, DefaultRooted expand (TestContext.untouchedChain depth)
      ∧ ∀ n ∈ (TestContext.untouchedChain depth).chain,
        n.getDataDirectoryDefault = .ok ⟨""⟩
        ∧ n.getReferenceDirectoryDefault = .ok ⟨""⟩
        ∧ n.getOutputDirectoryDefault = .ok ⟨""⟩) := by
  constructor
  · intro n hn
    have hroot : ∀ role, ((n.rootOf.localDirectories role).lookup "(default)").isSome = true := by
      intro role
      rw [rootOf_chain c n hn]
      exact DefaultRooted.root_has_default expand c h role
    exact ⟨getDirectory_of_root_lookup Role.data "(default)" n (hroot Role.data),
      getDirectory_of_root_lookup Role.reference "(default)" n (hroot Role.reference),
      getDirectory_of_root_lookup Role.output "(default)" n (hroot Role.output)⟩
  · intro depth
    refine ⟨untouchedChain_defaultRooted expand depth, ?_⟩
    intro n hn
    exact ⟨untouchedChain_getDirectory Role.data depth n hn,
      untouchedChain_getDirectory Role.reference depth n hn,
      untouchedChain_getDirectory Role.output depth n hn⟩

theorem configuredChild_defaultRooted : DefaultRooted (fun s => s) configuredChild :=
  DefaultRooted.set _ 0 Role.data "(default)" ⟨"sub"⟩
    (DefaultRooted.set _ 1 Role.output "(default)" ⟨"out"⟩
      (DefaultRooted.child _ DefaultRooted.root))

/-- The witness of C21: the child of a default-constructed root, after the
output directory of the root was set to "out" and the data directory of the
child to "sub", is on such a chain, the three getters return at both nodes,
and the child resolves its data directory to "sub", its reference directory
to the empty path and its output directory to "out". -/
theorem default_directories_resolve_witness :
    DefaultRooted (fun s => s) configuredChild
    ∧ ((∀ n ∈ configuredChild.chain,
        (∃ p, n.getDataDirectoryDefault = .ok p)
        ∧ (∃ p, n.getReferenceDirectoryDefault = .ok p)
        ∧ (∃ p, n.getOutputDirectoryDefault = .ok p))
      ∧ (∀ depth, DefaultRooted (fun s => s) (TestContext.untouchedChain depth)
        ∧ ∀ n ∈ (TestContext.untouchedChain depth).chain,
          n.getDataDirectoryDefault = .ok ⟨""⟩
          ∧ n.getReferenceDirectoryDefault = .ok ⟨""⟩
          ∧ n.getOutputDirectoryDefault = .ok ⟨""⟩))
    ∧ configuredChild.getDataDirectoryDefault = .ok ⟨"sub"⟩
    ∧ configuredChild.getReferenceDirectoryDefault = .ok ⟨""⟩
    ∧ configuredChild.getOutputDirectoryDefault = .ok ⟨"out"⟩ :=
  ⟨configuredChild_defaultRooted,
    default_directories_resolve (fun s => s) configuredChild configuredChild_defaultRooted,
    rfl, rfl, rfl⟩

end Ishiko
